import Mathlib

/-!
# Verification of the moltworker restore/reconcile/supervise subsystem

This file embeds, shallowly, the parts of the moltworker repository that the
frozen claims are about:

* the boot-time restore decision `should_restore_from_r2` of
  `start-openclaw.sh`;
* the auth-state summary `summarizeAuthState` (and its helpers
  `parseJson`, `getPrimaryModelFromConfig`, `providerFromModelRef`,
  `addProvider`, `collectProviders`, `hasProviderToken`) of the gateway's
  auth-state module, together with a model of `JSON.parse` / `JSON.stringify`
  sufficient to state the secrecy and resilience claims;
* the `node` config-patch step (the `EOFPATCH` heredoc) of
  `start-openclaw.sh`, over a model of mutable JavaScript JSON values;
* the legacy auth-store migration (`ensureStoreShape` /
  `migrateLegacyIntoStore`, the `EOFCODEX` heredoc) of `start-openclaw.sh`;
* the R2 sync entry point `syncToR2` of `src/gateway/sync.ts`;
* the `POST /api/force-restart` handler of the public routes module.

JavaScript values parsed from JSON are modelled by the inductive `Json`.
Arrays carry, besides their elements, a list of named expando properties:
`JSON.parse` never produces any (`propFree` below), but the config patcher
can attach properties to an array mid-run, and `JSON.stringify` drops them
again; carrying them keeps the embedding of the patch step faithful.
Numbers are modelled as exact rationals (mantissa/exponent form collapses
into `Rat`); none of the claims observes floating-point rounding.
-/

/-! ## JavaScript string primitives -/

/-- Whitespace as recognized by JavaScript's `String.prototype.trim` (the
ASCII part, plus NBSP and the line separators; exotic Unicode space code
points are not produced by any input in this development). -/
def isJsSpace (c : Char) : Bool :=
  c = ' ' || c = '\t' || c = '\n' || c = '\r' ||
  c = Char.ofNat 11 || c = Char.ofNat 12 || c = Char.ofNat 0xa0 ||
  c = Char.ofNat 0x2028 || c = Char.ofNat 0x2029 || c = Char.ofNat 0xfeff

/-- `String.prototype.trim`: drop leading and trailing whitespace. -/
def jsTrim (s : String) : String :=
  ⟨(s.data.dropWhile isJsSpace).reverse.dropWhile isJsSpace |>.reverse⟩

/-- ASCII lowercasing of one character, as `String.prototype.toLowerCase`
acts on the code points appearing in this development. -/
def jsLowerChar (c : Char) : Char :=
  if 'A' ≤ c ∧ c ≤ 'Z' then Char.ofNat (c.toNat + 32) else c

/-- `String.prototype.toLowerCase` (ASCII). -/
def jsLower (s : String) : String := ⟨s.data.map jsLowerChar⟩

/-- Boolean list-containment of one list inside another at the front. -/
def listIsFrontOf {α : Type} [DecidableEq α] : List α → List α → Bool
  | [], _ => true
  | _ :: _, [] => false
  | a :: as_, b :: bs => a = b && listIsFrontOf as_ bs

/-- Boolean substring containment on lists (needle occurs contiguously). -/
def listContainsSeq {α : Type} [DecidableEq α] (needle : List α) : List α → Bool
  | [] => needle.isEmpty
  | b :: bs => listIsFrontOf needle (b :: bs) || listContainsSeq needle bs

/-- `String.prototype.includes`: substring containment. -/
def strContains (hay needle : String) : Bool :=
  listContainsSeq needle.data hay.data

/-- `String.prototype.startsWith`. -/
def strStartsWith (s pre : String) : Bool := listIsFrontOf pre.data s.data

/-- Index of the first occurrence of a character, as
`String.prototype.indexOf` is used in the sources (single-character
needles only). `none` plays the role of `-1`. -/
def strIndexOfChar (s : String) (c : Char) : Option Nat :=
  s.data.findIdx? (· = c)

/-- `String.prototype.split` on a single-character separator: JavaScript
semantics, so splitting the empty string yields `[""]` and separators at the
ends yield empty fields. -/
def jsSplitChar (s : String) (sep : Char) : List String :=
  (s.data.splitOn sep).map (⟨·⟩)

/-! ## The JSON value model -/

/-- A JavaScript value of JSON shape.  `arr` carries the element list and a
list of expando properties (always empty on anything `JSON.parse` returns;
see the module comment). -/
inductive Json where
  | null
  | bool (b : Bool)
  | num (q : Rat)
  | str (s : String)
  | arr (elems : List Json) (props : List (String × Json))
  | obj (members : List (String × Json))
deriving Inhabited

/-- JavaScript truthiness of a JSON-shaped value (`undefined` is handled by
the `Option` layer at use sites). -/
def Json.truthy : Json → Bool
  | .null => false
  | .bool b => b
  | .num q => q ≠ 0
  | .str s => s ≠ ""
  | .arr _ _ => true
  | .obj _ => true

/-- Property read `v[k]` for the property names the embedded scripts use:
own properties of objects, expando properties of arrays; `undefined`
(= `none`) on primitives.  (No script reads `length` or an index.) -/
def Json.get : Json → String → Option Json
  | .obj ms, k => ms.lookup k
  | .arr _ ps, k => ps.lookup k
  | _, _ => none

/-- Update an association list at a key, keeping the key's position if it is
present (JavaScript objects keep insertion order) and appending otherwise. -/
def setAssoc (k : String) (v : Json) : List (String × Json) → List (String × Json)
  | [] => [(k, v)]
  | (k', v') :: rest =>
      if k' = k then (k, v) :: rest else (k', v') :: setAssoc k v rest

/-- Property write `v[k] = x`.  On objects and arrays this stores the
property (insertion-ordered); on primitives it is a silent no-op, which is
what non-strict JavaScript does. -/
def Json.set : Json → String → Json → Json
  | .obj ms, k, v => .obj (setAssoc k v ms)
  | .arr es ps, k, v => .arr es (setAssoc k v ps)
  | j, _, _ => j

/-! ## Claim C1: the restore decision -/

/-- Epoch seconds of a timestamp string under an abstract `date -d` parser;
an unparsable value is `0`, mirroring `|| echo "0"` in the script. -/
def epochOf (parseDate : String → Option Int) (s : String) : Int :=
  (parseDate s).getD 0

/-- `should_restore_from_r2` from `start-openclaw.sh`, with the two marker
reads already performed: `r2Time` is the output of
`rclone cat "$RCLONE_REMOTE/.last-sync"` and `localTime` the contents of
`$CONFIG_DIR/.last-sync`, either being `""` when missing or unreadable.
`parseDate` abstracts `date -d ... +%s`. -/
def should_restore_from_r2 (parseDate : String → Option Int)
    (r2Time localTime : String) : Bool :=
  if r2Time = "" then false
  else if localTime = "" then true
  else epochOf parseDate r2Time > epochOf parseDate localTime

/-! ## Claim C9: the force-restart handler -/

/-- A tracked process as the force-restart handler sees it: the only thing
the handler can observe is whether its `kill()` call throws (and it ignores
that). -/
structure TrackedProc where
  killThrows : Bool

/-- The abstract outcome of the best-effort cleanup block (spawning the
`pkill` process, bounded-waiting on it, killing it if still running): the
handler swallows every error in it, so a single flag suffices. -/
structure CleanupPass where
  throws : Bool

/-- The JSON body answered by `POST /api/force-restart`. -/
structure ForceRestartResponse where
  ok : Bool
  killed : Option Nat
  error : Option String
  message : Option String
deriving Repr

/-- The kill loop of the handler: each `proc.kill()` is awaited inside a
`try`/`catch` that ignores the error, so the loop merely consumes the
list. -/
def killLoop : List TrackedProc → Unit
  | [] => ()
  | _ :: rest => killLoop rest

/-- The `POST /api/force-restart` handler from the public routes module.
`listing` is the result of `sandbox.listProcesses()` (which may throw, the
one way into the outer `catch`); `cleanup` is the best-effort cleanup
pass, whose failure is swallowed. -/
def forceRestartHandler (listing : Except String (List TrackedProc))
    (cleanup : CleanupPass) : ForceRestartResponse :=
  match listing with
  | .error e => { ok := false, killed := none, error := some e, message := none }
  | .ok procs =>
      let _ := killLoop procs
      let _ := cleanup
      { ok := true, killed := some procs.length, error := none,
        message := some "All processes killed. Gateway will restart on next request." }

/-! ## A model of `JSON.parse`

Fuel-based total recursive-descent over the character list, mirroring the
JSON grammar `JSON.parse` accepts: strict whitespace (space, tab, LF, CR),
no trailing commas, no comments, control characters forbidden inside
strings, `\uXXXX` escapes (surrogate pairs combined; a lone surrogate,
which Lean's `Char` cannot carry, becomes U+FFFD — no input in this
development contains one), exact rational numbers, and last-wins duplicate
object keys at the first key's position, as JavaScript objects behave. -/

def jsonWs (c : Char) : Bool := c = ' ' || c = '\t' || c = '\n' || c = '\r'

def skipJsonWs : List Char → List Char
  | c :: cs => if jsonWs c then skipJsonWs cs else c :: cs
  | [] => []

def hexDigitVal (c : Char) : Option Nat :=
  if '0' ≤ c ∧ c ≤ '9' then some (c.toNat - '0'.toNat)
  else if 'a' ≤ c ∧ c ≤ 'f' then some (c.toNat - 'a'.toNat + 10)
  else if 'A' ≤ c ∧ c ≤ 'F' then some (c.toNat - 'A'.toNat + 10)
  else none

def hexQuad (a b c d : Char) : Option Nat := do
  let x ← hexDigitVal a
  let y ← hexDigitVal b
  let z ← hexDigitVal c
  let w ← hexDigitVal d
  pure (((x * 16 + y) * 16 + z) * 16 + w)

def simpleEscape : Char → Option Char
  | 't' => some '\t'
  | 'r' => some '\r'
  | 'n' => some '\n'
  | 'f' => some (Char.ofNat 12)
  | 'b' => some (Char.ofNat 8)
  | '/' => some '/'
  | '\\' => some '\\'
  | '"' => some '"'
  | _ => none

/-- Turn one or two UTF-16 code units into a character: a surrogate pair is
combined, a lone surrogate degrades to U+FFFD (see the section comment). -/
def unitChar (n : Nat) : Char :=
  if n.isValidChar then Char.ofNat n else Char.ofNat 0xfffd

/-- Look ahead for a `\uXXXX` escape carrying a low surrogate (used to pair
it with a preceding high surrogate). -/
def lowSurrogateAhead : List Char → Option (Nat × List Char)
  | '\\' :: 'u' :: h1 :: h2 :: h3 :: h4 :: rest =>
      match hexQuad h1 h2 h3 h4 with
      | some m => if 0xdc00 ≤ m ∧ m ≤ 0xdfff then some (m, rest) else none
      | none => none
  | _ => none

def jparseStringBody (fuel : Nat) (acc : List Char) (cs : List Char) :
    Option (String × List Char) :=
  match fuel with
  | 0 => none
  | fuel + 1 =>
    match cs with
    | '"' :: rest => some (⟨acc.reverse⟩, rest)
    | '\\' :: 'u' :: h1 :: h2 :: h3 :: h4 :: rest =>
        match hexQuad h1 h2 h3 h4 with
        | none => none
        | some n =>
            if 0xd800 ≤ n ∧ n ≤ 0xdbff then
              match lowSurrogateAhead rest with
              | some (m, rest') =>
                  jparseStringBody fuel
                    (unitChar (0x10000 + (n - 0xd800) * 0x400 + (m - 0xdc00)) :: acc) rest'
              | none => jparseStringBody fuel (unitChar n :: acc) rest
            else jparseStringBody fuel (unitChar n :: acc) rest
    | '\\' :: e :: rest =>
        match simpleEscape e with
        | some ch => jparseStringBody fuel (ch :: acc) rest
        | none => none
    | c :: rest =>
        if c.toNat < 0x20 then none else jparseStringBody fuel (c :: acc) rest
    | [] => none

def digitsToNat (ds : List Char) : Nat :=
  ds.foldl (fun acc c => acc * 10 + (c.toNat - '0'.toNat)) 0

def isDigitChar (c : Char) : Bool := '0' ≤ c && c ≤ '9'

def jparseNumber (cs : List Char) : Option (Rat × List Char) :=
  let (isNeg, afterSign) := match cs with
    | '-' :: sgtl => (true, sgtl)
    | _ => (false, cs)
  let (intDigits, cs2) : List Char × List Char := match afterSign with
    | '0' :: ztl => (['0'], ztl)
    | _ => (afterSign.takeWhile isDigitChar, afterSign.dropWhile isDigitChar)
  if intDigits.isEmpty then none
  else
    let step2 : Option (List Char × List Char) := match cs2 with
      | '.' :: fr =>
          let fs := fr.takeWhile isDigitChar
          if fs.isEmpty then none else some (fs, fr.dropWhile isDigitChar)
      | _ => some ([], cs2)
    match step2 with
    | none => none
    | some (fracDigits, rest3) =>
        let step3 : Option (Int × List Char) := match rest3 with
          | 'e' :: tl | 'E' :: tl =>
              let (sg, tlA) : Int × List Char := match tl with
                | '+' :: tl2 => (1, tl2)
                | '-' :: tl2 => (-1, tl2)
                | _ => (1, tl)
              let es := tlA.takeWhile isDigitChar
              if es.isEmpty then none
              else some (sg * (digitsToNat es : Int), tlA.dropWhile isDigitChar)
          | _ => some (0, rest3)
        match step3 with
        | none => none
        | some (expVal, cs4) =>
            let mant : Int :=
              (if isNeg then -1 else 1) * (digitsToNat (intDigits ++ fracDigits) : Int)
            let e : Int := expVal - (fracDigits.length : Int)
            let q : Rat :=
              if 0 ≤ e then (mant : Rat) * (10 : Rat) ^ e.toNat
              else (mant : Rat) / (10 : Rat) ^ (-e).toNat
            some (q, cs4)

/-- Collapse a parsed member list the way JavaScript object literals from
`JSON.parse` behave: a repeated key keeps the first occurrence's position
and the last occurrence's value. -/
def objFromPairs (pairs : List (String × Json)) : List (String × Json) :=
  pairs.foldl (fun acc kv => setAssoc kv.1 kv.2 acc) []

mutual

def jparseValue (fuel : Nat) (cs : List Char) : Option (Json × List Char) :=
  match fuel with
  | 0 => none
  | fuel + 1 =>
    match skipJsonWs cs with
    | 'n' :: 'u' :: 'l' :: 'l' :: litRest => some (.null, litRest)
    | 't' :: 'r' :: 'u' :: 'e' :: litRest => some (.bool true, litRest)
    | 'f' :: 'a' :: 'l' :: 's' :: 'e' :: litRest => some (.bool false, litRest)
    | '"' :: r =>
        match jparseStringBody (r.length + 1) [] r with
        | some (s, r') => some (.str s, r')
        | none => none
    | '[' :: r =>
        match skipJsonWs r with
        | ']' :: r' => some (.arr [] [], r')
        | r' =>
            match jparseElems fuel r' with
            | some (es, r'') => some (.arr es [], r'')
            | none => none
    | '{' :: r =>
        match skipJsonWs r with
        | '}' :: r' => some (.obj [], r')
        | r' =>
            match jparseMembers fuel r' with
            | some (ms, r'') => some (.obj (objFromPairs ms), r'')
            | none => none
    | c :: rest =>
        if c = '-' || isDigitChar c then
          match jparseNumber (c :: rest) with
          | some (q, r') => some (.num q, r')
          | none => none
        else none
    | [] => none

def jparseElems (fuel : Nat) (cs : List Char) : Option (List Json × List Char) :=
  match fuel with
  | 0 => none
  | fuel + 1 =>
    match jparseValue fuel cs with
    | none => none
    | some (v, r) =>
        match skipJsonWs r with
        | ',' :: r' =>
            match jparseElems fuel r' with
            | some (vs, r'') => some (v :: vs, r'')
            | none => none
        | ']' :: r' => some ([v], r')
        | _ => none

def jparseMembers (fuel : Nat) (cs : List Char) : Option (List (String × Json) × List Char) :=
  match fuel with
  | 0 => none
  | fuel + 1 =>
    match skipJsonWs cs with
    | '"' :: r =>
        match jparseStringBody (r.length + 1) [] r with
        | none => none
        | some (key, r1) =>
            match skipJsonWs r1 with
            | ':' :: r2 =>
                match jparseValue fuel r2 with
                | none => none
                | some (v, r3) =>
                    match skipJsonWs r3 with
                    | ',' :: r4 =>
                        match jparseMembers fuel r4 with
                        | some (ms, r5) => some ((key, v) :: ms, r5)
                        | none => none
                    | '}' :: r4 => some ([(key, v)], r4)
                    | _ => none
            | _ => none
    | _ => none

end

/-- `JSON.parse`: `none` models a thrown `SyntaxError`. -/
def parseJsonText (s : String) : Option Json :=
  match jparseValue (s.length + 1) s.data with
  | none => none
  | some (j, r) => if skipJsonWs r = [] then some j else none

/-! ## The auth-state module

Embeds the gateway's auth-state summary module: `parseJson`,
`getPrimaryModelFromConfig`, `providerFromModelRef`, `addProvider`,
`collectProviders`, `hasProviderToken`, `summarizeAuthState`.  The
JavaScript `Set<string>` becomes an insertion-ordered duplicate-free list,
which is exactly how `Array.from` observes it. -/

/-- Character class `[a-z0-9._-]` under the `i` flag. -/
def isProviderChar (ch : Char) : Bool :=
  ('a' ≤ ch && ch ≤ 'z') || ('A' ≤ ch && ch ≤ 'Z') || ('0' ≤ ch && ch ≤ '9') ||
  ch = '.' || ch = '_' || ch = '-'

/-- Character class `[a-z0-9]` under the `i` flag. -/
def isProviderStart (ch : Char) : Bool :=
  ('a' ≤ ch && ch ≤ 'z') || ('A' ≤ ch && ch ≤ 'Z') || ('0' ≤ ch && ch ≤ '9')

/-- `\s` of JavaScript regular expressions, to the extent exercised here
(shared with `isJsSpace`). -/
def isRegexSpace (c : Char) : Bool := isJsSpace c

/-- Match of `MODEL_PROVIDER_RE = /^([a-z0-9][a-z0-9._-]*)\/([^\s]+)$/i`
against a string, returning capture group 1.  Since the first group's class
excludes `/`, the regex matches exactly when the maximal leading run of
provider characters is non-empty, starts alphanumerically, is followed by
`/`, and the remainder is a non-empty run of non-whitespace characters. -/
def modelProviderMatch (s : String) : Option String :=
  let cs := s.data
  let pre := cs.takeWhile isProviderChar
  match cs.drop pre.length with
  | '/' :: tail =>
      match pre with
      | [] => none
      | c :: _ =>
          if isProviderStart c ∧ tail ≠ [] ∧ tail.all (fun t => ¬ isRegexSpace t) then
            some ⟨pre⟩
          else none
  | _ => none

/-- Test of `SIMPLE_PROVIDER_RE = /^[a-z0-9][a-z0-9._-]*$/i`. -/
def simpleProviderTest (s : String) : Bool :=
  match s.data with
  | [] => false
  | c :: rest => isProviderStart c && rest.all isProviderChar

def providerFromModelRef (modelRef : Option String) : Option String :=
  match modelRef with
  | none => none
  | some m =>
      if m = "" then none
      else
        let trimmed := jsTrim m
        if trimmed = "" ∨ strStartsWith trimmed "http://" ∨
            strStartsWith trimmed "https://" then none
        else modelProviderMatch trimmed

def addProvider (out : List String) (maybeProvider : Option String) : List String :=
  match maybeProvider with
  | none => out
  | some p =>
      if p = "" then out
      else
        let normalized := jsLower (jsTrim p)
        if normalized = "" ∨ ¬ simpleProviderTest normalized then out
        else if normalized ∈ out then out else out ++ [normalized]

/-- The key list `['provider', 'providername', 'providerid']` that makes a
string value count as a provider name. -/
def providerKeys : List String := ["provider", "providername", "providerid"]

mutual

/-- `collectProviders` of the auth-state module.  The `WeakSet` cycle guard
of the source never fires here: values produced by `JSON.parse` are trees
with no shared references. -/
def collectProviders (value : Json) (out : List String) (parentKey : String) :
    List String :=
  match value with
  | .str s =>
      let out1 := if parentKey ∈ providerKeys then addProvider out (some s) else out
      addProvider out1 (providerFromModelRef (some s))
  | .null => out
  | .bool _ => out
  | .num _ => out
  | .arr es _ => collectFromElems es out parentKey
  | .obj ms => collectFromMembers ms out

def collectFromElems (items : List Json) (out : List String) (parentKey : String) :
    List String :=
  match items with
  | [] => out
  | item :: rest => collectFromElems rest (collectProviders item out parentKey) parentKey

def collectFromMembers (members : List (String × Json)) (out : List String) :
    List String :=
  match members with
  | [] => out
  | (k, child) :: rest =>
      collectFromMembers rest
        (collectProviders child (addProvider out (providerFromModelRef (some k))) (jsLower k))

end

/-- `parseJson` of the auth-state module: empty/blank/unparsable text
behaves as JavaScript `null`, which this model conflates with `Json.null`
(the two are indistinguishable to every consumer in the module). -/
def parseJson (text : Option String) : Json :=
  match text with
  | none => .null
  | some t => if jsTrim t = "" then .null else (parseJsonText t).getD .null

/-- `typeof v === 'object'` for a JSON-shaped value (`null` included, as in
JavaScript). -/
def Json.isObjectType : Json → Bool
  | .null => true
  | .arr _ _ => true
  | .obj _ => true
  | _ => false

def getPrimaryModelFromConfig (config : Json) : Option String :=
  if ¬ config.truthy ∨ ¬ config.isObjectType then none
  else
    let agents := config.get "agents"
    let defaults : Option Json := match agents with
      | none => none
      | some .null => none
      | some a => a.get "defaults"
    let model : Option Json := match defaults with
      | none => none
      | some .null => none
      | some d => d.get "model"
    match model with
    | some (.str s) => some s
    | some m =>
        if m.truthy ∧ m.isObjectType then
          match m.get "primary" with
          | some (.str p) => some p
          | _ => none
        else none
    | none => none

/-- Case-insensitive match of `needle` against the front of `hay`,
returning the remainder on success. -/
def matchCaseFold : List Char → List Char → Option (List Char)
  | [], rest => some rest
  | _ :: _, [] => none
  | n :: ns, h :: hs =>
      if jsLowerChar n = jsLowerChar h then matchCaseFold ns hs else none

/-- One step of the token-boundary scan: `prevOk` records whether the
character before the current position was absent or outside
`[a-z0-9._-]`. -/
def tokenBoundaryScan (needle : List Char) (prevOk : Bool) : List Char → Bool
  | [] => false
  | c :: cs =>
      (prevOk &&
        match matchCaseFold needle (c :: cs) with
        | some rest =>
            match rest with
            | [] => true
            | r :: _ => ¬ isProviderChar r
        | none => false) ||
      tokenBoundaryScan needle (¬ isProviderChar c) cs

/-- `hasProviderToken`: does `raw` contain `provider` (case-insensitively)
with no `[a-z0-9._-]` character adjacent on either side?  The regex
metacharacter escaping of the source only makes the provider a literal
needle, which is what the scan searches for. -/
def hasProviderToken (raw provider : Option String) : Bool :=
  match raw, provider with
  | some r, some p =>
      if r = "" ∨ p = "" then false
      else tokenBoundaryScan p.data true r.data
  | _, _ => false

structure AuthStateInput where
  configText : Option String
  authProfilesText : Option String
  oauthFilePresent : Bool := false
  agentId : Option String := none

structure AuthStateSummary where
  primary_model : Option String
  primary_provider : Option String
  agent_id : String
  auth_profiles_present : Bool
  providers_with_profiles : List String
  has_legacy_oauth_import_file : Bool
  mismatch_detected : Bool
deriving Repr

/-- Truthiness of an optional string (`undefined` and `""` are falsy). -/
def optStrTruthy : Option String → Bool
  | none => false
  | some s => s ≠ ""

def summarizeAuthState (input : AuthStateInput) : AuthStateSummary :=
  let configObj := parseJson input.configText
  let authProfilesObj := parseJson input.authProfilesText
  let primaryModel := getPrimaryModelFromConfig configObj
  let primaryProvider := providerFromModelRef primaryModel
  let authProfilesPresent : Bool := match input.authProfilesText with
    | none => false
    | some t => jsTrim t ≠ ""
  let providers0 := collectProviders authProfilesObj [] ""
  let providers :=
    match primaryProvider with
    | some p =>
        if p ≠ "" ∧ hasProviderToken input.authProfilesText primaryProvider then
          if p ∈ providers0 then providers0 else providers0 ++ [p]
        else providers0
    | none => providers0
  let hasPrimaryProviderProfile : Bool :=
    if optStrTruthy primaryProvider then (primaryProvider.getD "") ∈ providers
    else true
  { primary_model := primaryModel
    primary_provider := primaryProvider
    agent_id := if optStrTruthy input.agentId then input.agentId.getD "" else "main"
    auth_profiles_present := authProfilesPresent
    providers_with_profiles := providers
    has_legacy_oauth_import_file := input.oauthFilePresent
    mismatch_detected := optStrTruthy primaryProvider && ¬ hasPrimaryProviderProfile }

/-! ## Concrete auth-state inputs

The texts of the example scenarios (as in the module's test suite): a
config whose primary model is `openai-codex/gpt-5.3-codex`; an auth store
holding only an `anthropic` profile; one holding an `openai-codex`
profile; and a truncated (invalid-JSON) store text that still contains the
`openai-codex` token. -/

def cfgTextCodex : String :=
  "\x7b\"agents\":\x7b\"defaults\":\x7b\"model\":\x7b\"primary\":\"openai-codex/gpt-5.3-codex\"\x7d\x7d\x7d\x7d"

def authTextAnthropicOnly : String :=
  "\x7b\"profiles\":[\x7b\"provider\":\"anthropic\",\"name\":\"default\"\x7d]\x7d"

def authTextCodex : String :=
  "\x7b\"profiles\":[\x7b\"provider\":\"openai-codex\",\"name\":\"oauth\"\x7d]\x7d"

def authTextTruncated : String :=
  "\x7b\"profiles\":[\x7b\"provider\":\"openai-codex\""

/-! ## The config patcher

Embeds the `node` heredoc (`EOFPATCH`) of `start-openclaw.sh` statement by
statement.  The script runs in non-strict mode, so:

* reading a property of `undefined` or `null` throws a `TypeError`
  (modelled by `none` in the `Option` monad);
* reading a property of any other primitive yields `undefined`;
* assigning a property of a primitive is a silent no-op;
* assigning a property of an array stores an expando property, which the
  final `JSON.stringify` drops again (`stripProps`).

All mutated values originate in `JSON.parse` output or fresh literals, and
no statement stores one existing subtree under a second path, so the heap
has no sharing and functional path updates are faithful. -/

structure PatchEnv where
  openclaw_gateway_token : Option String
  openclaw_dev_mode : Option String
  cf_ai_gateway_model : Option String
  cf_ai_gateway_account_id : Option String
  cf_ai_gateway_gateway_id : Option String
  cloudflare_ai_gateway_api_key : Option String
  cf_account_id : Option String
  telegram_bot_token : Option String
  telegram_dm_policy : Option String
  telegram_dm_allow_from : Option String
  discord_bot_token : Option String
  discord_dm_policy : Option String
  slack_bot_token : Option String
  slack_app_token : Option String

/-- Read `root.k` where `root` is a defined JavaScript value: throws
(`none`) on `null`, yields the property (or `undefined` = `some none`)
otherwise. -/
def readProp (root : Json) (k : String) : Option (Option Json) :=
  match root with
  | .null => none
  | _ => some (root.get k)

/-- Read `root.k1.k2` with JavaScript throw semantics. -/
def readAt2 (root : Json) (k1 k2 : String) : Option (Option Json) := do
  let b ← readProp root k1
  match b with
  | none => none
  | some .null => none
  | some bv => pure (bv.get k2)

/-- Read `root.k1.k2.k3` with JavaScript throw semantics. -/
def readAt3 (root : Json) (k1 k2 k3 : String) : Option (Option Json) := do
  let v2 ← readAt2 root k1 k2
  match v2 with
  | none => none
  | some .null => none
  | some v => pure (v.get k3)

/-- `root.k = root.k || dflt` (the root itself is defined). -/
def orAssignAt1 (root : Json) (k : String) (dflt : Json) : Option Json := do
  let cur ← readProp root k
  match cur with
  | some v => if v.truthy then pure root else pure (root.set k dflt)
  | none => pure (root.set k dflt)

/-- `root.k1.k2 = root.k1.k2 || dflt`. -/
def orAssignAt2 (root : Json) (k1 k2 : String) (dflt : Json) : Option Json := do
  let b ← readProp root k1
  match b with
  | none => none
  | some .null => none
  | some bv =>
      match bv.get k2 with
      | some v =>
          if v.truthy then pure root else pure (root.set k1 (bv.set k2 dflt))
      | none => pure (root.set k1 (bv.set k2 dflt))

/-- `root.k1.k2.k3 = root.k1.k2.k3 || dflt`. -/
def orAssignAt3 (root : Json) (k1 k2 k3 : String) (dflt : Json) : Option Json := do
  let b1 ← readProp root k1
  match b1 with
  | none => none
  | some .null => none
  | some bv1 =>
      match bv1.get k2 with
      | none => none
      | some .null => none
      | some bv2 =>
          match bv2.get k3 with
          | some v =>
              if v.truthy then pure root
              else pure (root.set k1 (bv1.set k2 (bv2.set k3 dflt)))
          | none => pure (root.set k1 (bv1.set k2 (bv2.set k3 dflt)))

/-- `root.k1.k2 = v`. -/
def setAt2 (root : Json) (k1 k2 : String) (v : Json) : Option Json := do
  let b ← readProp root k1
  match b with
  | none => none
  | some .null => none
  | some bv => pure (root.set k1 (bv.set k2 v))

/-- `root.k1.k2.k3 = v`. -/
def setAt3 (root : Json) (k1 k2 k3 : String) (v : Json) : Option Json := do
  let b1 ← readProp root k1
  match b1 with
  | none => none
  | some .null => none
  | some bv1 =>
      match bv1.get k2 with
      | none => none
      | some .null => none
      | some bv2 => pure (root.set k1 (bv1.set k2 (bv2.set k3 v)))

/-- `root.k1.k2.k3.k4 = v`. -/
def setAt4 (root : Json) (k1 k2 k3 k4 : String) (v : Json) : Option Json := do
  let b1 ← readProp root k1
  match b1 with
  | none => none
  | some .null => none
  | some bv1 =>
      match bv1.get k2 with
      | none => none
      | some .null => none
      | some bv2 =>
          match bv2.get k3 with
          | none => none
          | some .null => none
          | some bv3 => pure (root.set k1 (bv1.set k2 (bv2.set k3 (bv3.set k4 v))))

/-- `v.includes(needle)`: arrays compare elements under SameValueZero
(against a string, only equal strings match), strings search substrings,
everything else throws. -/
def jsIncludes (v : Option Json) (needle : String) : Option Bool :=
  match v with
  | some (.arr es _) =>
      some (es.any (fun e => match e with | .str s => s = needle | _ => false))
  | some (.str s) => some (strContains s needle)
  | _ => none

mutual

/-- Drop expando properties from every array, recursively: the composite of
`JSON.stringify` and the next `JSON.parse`, which is how the patched
document is observed (strings and exact rationals round-trip; object key
order and duplicates are already canonical in this model). -/
def stripProps : Json → Json
  | .arr es _ => .arr (stripPropsList es) []
  | .obj ms => .obj (stripPropsMembers ms)
  | j => j

def stripPropsList : List Json → List Json
  | [] => []
  | j :: rest => stripProps j :: stripPropsList rest

def stripPropsMembers : List (String × Json) → List (String × Json)
  | [] => []
  | (k, v) :: rest => (k, stripProps v) :: stripPropsMembers rest

end

/-- The filesystem path registered for local extensions. -/
def extensionsPath : String := "/root/.openclaw/extensions"

/-- Statements 1–3 of the patch script: ensure `gateway`, `channels`,
`plugins` are truthy (else fresh objects). -/
def stageEnsureTop (c : Json) : Option Json := do
  let c1 ← orAssignAt1 c "gateway" (.obj [])
  let c2 ← orAssignAt1 c1 "channels" (.obj [])
  orAssignAt1 c2 "plugins" (.obj [])

/-- The plugin statements: ensure `plugins.entries`, `plugins.load`,
`plugins.load.paths`; append the extensions path if absent; ensure and
enable the `trace-model` entry. -/
def stagePluginsSetup (c3 : Json) : Option Json := do
  let c4 ← orAssignAt2 c3 "plugins" "entries" (.obj [])
  let c5 ← orAssignAt2 c4 "plugins" "load" (.obj [])
  let c6 ← orAssignAt3 c5 "plugins" "load" "paths" (.arr [] [])
  let pathsV ← readAt3 c6 "plugins" "load" "paths"
  let inc ← jsIncludes pathsV extensionsPath
  let c7 ←
    if inc then pure c6
    else
      match pathsV with
      | some (.arr es ps) =>
          setAt3 c6 "plugins" "load" "paths" (.arr (es ++ [.str extensionsPath]) ps)
      | _ => none
  let c8 ← orAssignAt3 c7 "plugins" "entries" "trace-model" (.obj [])
  setAt4 c8 "plugins" "entries" "trace-model" "enabled" (.bool true)

/-- The gateway statements: port, mode, trusted proxies, optional token
auth, optional dev-mode control-UI flag. -/
def stageGateway (env : PatchEnv) (c9 : Json) : Option Json := do
  let c10 ← setAt2 c9 "gateway" "port" (.num 18789)
  let c11 ← setAt2 c10 "gateway" "mode" (.str "local")
  let c12 ← setAt2 c11 "gateway" "trustedProxies" (.arr [.str "10.1.0.0"] [])
  let c13 ←
    if optStrTruthy env.openclaw_gateway_token then do
      let ca ← orAssignAt2 c12 "gateway" "auth" (.obj [])
      setAt3 ca "gateway" "auth" "token" (.str (env.openclaw_gateway_token.getD ""))
    else pure c12
  if env.openclaw_dev_mode = some "true" then do
    let cb ← orAssignAt2 c13 "gateway" "controlUi" (.obj [])
    setAt3 cb "gateway" "controlUi" "allowInsecureAuth" (.bool true)
  else pure c13

/-- `CF_AI_GATEWAY_MODEL` parsed as `substring` before/after the first
`/`, with the JavaScript clamping `substring(0, -1) = ""` when there is
none. -/
def cfGwProvider (raw : String) : String :=
  match strIndexOfChar raw '/' with
  | some i => ⟨raw.data.take i⟩
  | none => ""

def cfModelId (raw : String) : String :=
  match strIndexOfChar raw '/' with
  | some i => ⟨raw.data.drop (i + 1)⟩
  | none => raw

/-- The synthesized model-gateway base URL (`undefined` when the required
identifiers are missing). -/
def cfBaseUrl (env : PatchEnv) (gwProvider : String) : Option String :=
  if optStrTruthy env.cf_ai_gateway_account_id ∧
      optStrTruthy env.cf_ai_gateway_gateway_id then
    some ("https://gateway.ai.cloudflare.com/v1/" ++
      env.cf_ai_gateway_account_id.getD "" ++ "/" ++
      env.cf_ai_gateway_gateway_id.getD "" ++ "/" ++ gwProvider ++
      (if gwProvider = "workers-ai" then "/v1" else ""))
  else if gwProvider = "workers-ai" ∧ optStrTruthy env.cf_account_id then
    some ("https://api.cloudflare.com/client/v4/accounts/" ++
      env.cf_account_id.getD "" ++ "/ai/v1")
  else none

/-- The provider entry installed for the AI-gateway model override. -/
def cfProviderEntry (env : PatchEnv) (url api modelId : String) : Json :=
  .obj [("baseUrl", .str url),
        ("apiKey", .str (env.cloudflare_ai_gateway_api_key.getD "")),
        ("api", .str api),
        ("models", .arr [.obj [("id", .str modelId),
                               ("name", .str modelId),
                               ("contextWindow", .num 131072),
                               ("maxTokens", .num 8192)]] [])]

/-- The `CF_AI_GATEWAY_MODEL` override block: either fully applied or
skipped with a warning, never partial. -/
def stageCfModel (env : PatchEnv) (c14 : Json) : Option Json :=
  if optStrTruthy env.cf_ai_gateway_model then
    let raw := env.cf_ai_gateway_model.getD ""
    let gwProvider := cfGwProvider raw
    let modelId := cfModelId raw
    match cfBaseUrl env gwProvider with
    | some url =>
        if optStrTruthy env.cloudflare_ai_gateway_api_key then do
          let api : String :=
            if gwProvider = "anthropic" then "anthropic-messages"
            else "openai-completions"
          let providerName := "cf-ai-gw-" ++ gwProvider
          let ca ← orAssignAt1 c14 "models" (.obj [])
          let cb ← orAssignAt2 ca "models" "providers" (.obj [])
          let cc ← setAt3 cb "models" "providers" providerName
            (cfProviderEntry env url api modelId)
          let cd ← orAssignAt1 cc "agents" (.obj [])
          let ce ← orAssignAt2 cd "agents" "defaults" (.obj [])
          setAt3 ce "agents" "defaults" "model"
            (.obj [("primary", .str (providerName ++ "/" ++ modelId))])
        else pure c14
    | none => pure c14
  else pure c14

/-- The Telegram DM policy (`'pairing'` when the variable is unset or
empty). -/
def telegramDmPolicy (env : PatchEnv) : String :=
  if optStrTruthy env.telegram_dm_policy then env.telegram_dm_policy.getD ""
  else "pairing"

/-- The fresh `channels.telegram` object (before the `allowFrom`
follow-up assignment). -/
def telegramBaseObj (env : PatchEnv) : Json :=
  .obj [("botToken", .str (env.telegram_bot_token.getD "")),
        ("enabled", .bool true),
        ("dmPolicy", .str (telegramDmPolicy env))]

/-- The Telegram block: wholesale replacement of `channels.telegram`, then
the conditional `allowFrom` assignment. -/
def stageTelegram (env : PatchEnv) (c15 : Json) : Option Json :=
  if optStrTruthy env.telegram_bot_token then do
    let ca ← setAt2 c15 "channels" "telegram" (telegramBaseObj env)
    if optStrTruthy env.telegram_dm_allow_from then
      setAt3 ca "channels" "telegram" "allowFrom"
        (.arr ((jsSplitChar (env.telegram_dm_allow_from.getD "") ',').map .str) [])
    else if telegramDmPolicy env = "open" then
      setAt3 ca "channels" "telegram" "allowFrom" (.arr [.str "*"] [])
    else pure ca
  else pure c15

/-- The fresh `channels.discord` object. -/
def discordObj (env : PatchEnv) : Json :=
  let dmPolicy : String :=
    if optStrTruthy env.discord_dm_policy then env.discord_dm_policy.getD ""
    else "pairing"
  let dm : Json :=
    if dmPolicy = "open" then
      .obj [("policy", .str dmPolicy), ("allowFrom", .arr [.str "*"] [])]
    else .obj [("policy", .str dmPolicy)]
  .obj [("token", .str (env.discord_bot_token.getD "")),
        ("enabled", .bool true),
        ("dm", dm)]

/-- The Discord block: wholesale replacement of `channels.discord`. -/
def stageDiscord (env : PatchEnv) (c16 : Json) : Option Json :=
  if optStrTruthy env.discord_bot_token then
    setAt2 c16 "channels" "discord" (discordObj env)
  else pure c16

/-- The fresh `channels.slack` object. -/
def slackObj (env : PatchEnv) : Json :=
  .obj [("botToken", .str (env.slack_bot_token.getD "")),
        ("appToken", .str (env.slack_app_token.getD "")),
        ("enabled", .bool true)]

/-- The Slack block: wholesale replacement of `channels.slack` when both
tokens are present. -/
def stageSlack (env : PatchEnv) (c17 : Json) : Option Json :=
  if optStrTruthy env.slack_bot_token ∧ optStrTruthy env.slack_app_token then
    setAt2 c17 "channels" "slack" (slackObj env)
  else pure c17

/-- The `EOFPATCH` heredoc of `start-openclaw.sh`, from the parsed config
document to the document the script writes back (as observed after the
stringify/parse round trip); `none` is an uncaught exception (the script
aborts without writing). -/
def patchConfig (env : PatchEnv) (config0 : Json) : Option Json := do
  let c3 ← stageEnsureTop config0
  let c9 ← stagePluginsSetup c3
  let c14 ← stageGateway env c9
  let c15 ← stageCfModel env c14
  let c16 ← stageTelegram env c15
  let c17 ← stageDiscord env c16
  let c18 ← stageSlack env c17
  pure (stripProps c18)

/-- The final `channels.telegram` object the patcher installs: the base
object plus the conditional `allowFrom` follow-up assignment. -/
def telegramFinalObj (env : PatchEnv) : Json :=
  if optStrTruthy env.telegram_dm_allow_from then
    (telegramBaseObj env).set "allowFrom"
      (.arr ((jsSplitChar (env.telegram_dm_allow_from.getD "") ',').map .str) [])
  else if telegramDmPolicy env = "open" then
    (telegramBaseObj env).set "allowFrom" (.arr [.str "*"] [])
  else telegramBaseObj env

/-- A patch environment with all three channel credentials present and an
`open` Telegram DM policy without an allow-list. -/
def exEnvC4 : PatchEnv :=
  { openclaw_gateway_token := some "gw-secret"
    openclaw_dev_mode := none
    cf_ai_gateway_model := none
    cf_ai_gateway_account_id := none
    cf_ai_gateway_gateway_id := none
    cloudflare_ai_gateway_api_key := none
    cf_account_id := none
    telegram_bot_token := some "123:AAArealTGtoken"
    telegram_dm_policy := some "open"
    telegram_dm_allow_from := none
    discord_bot_token := some "discord-bot-token"
    discord_dm_policy := none
    slack_bot_token := some "xoxb-slack"
    slack_app_token := some "xapp-slack" }

/-- A config document whose `channels.telegram` subtree holds stale keys. -/
def exMsC4 : List (String × Json) :=
  [("telegram", .obj [("chatId", .str "42"), ("staleKey", .bool true)])]

def exDsC4 : List (String × Json) :=
  [("channels", .obj exMsC4), ("agents", .obj [])]

/-- The document the patcher writes for `exEnvC4` / `exDsC4`. -/
def exRC4 : Json := (patchConfig exEnvC4 (.obj exDsC4)).getD .null

/-! ### Per-subtree actions of the patch stages

Each patch stage reads and writes a single top-level subtree (two for the
model override).  The following functions give the stage's action on that
subtree's value; the factorization theorems below prove each stage equal
to its action lifted through `Json.set` at the stage's key. -/

/-- `x.k = x.k || {}` as an action on the value of `x.k`. -/
def ensVal (vo : Option Json) : Json :=
  match vo with
  | some v => if v.truthy then v else .obj []
  | none => .obj []

/-- Whether a value is the JavaScript `null`. -/
def isNullJ : Json → Bool
  | .null => true
  | _ => false

/-- `p.k2 = p.k2 || dflt` as an action on `p` (a defined value). -/
def orAt2Val (P : Json) (k2 : String) (d : Json) : Option Json :=
  if isNullJ P then none
  else
    match P.get k2 with
    | some v => if v.truthy then some P else some (P.set k2 d)
    | none => some (P.set k2 d)

/-- `p.k2.k3 = p.k2.k3 || dflt` as an action on `p`. -/
def orAt3Val (P : Json) (k2 k3 : String) (d : Json) : Option Json :=
  if isNullJ P then none
  else
    match P.get k2 with
    | none => none
    | some B2 =>
        if isNullJ B2 then none
        else
          match B2.get k3 with
          | some v => if v.truthy then some P else some (P.set k2 (B2.set k3 d))
          | none => some (P.set k2 (B2.set k3 d))

/-- `p.k2 = v` as an action on `p`. -/
def setAt2Val (P : Json) (k2 : String) (v : Json) : Option Json :=
  if isNullJ P then none else some (P.set k2 v)

/-- `p.k2.k3 = v` as an action on `p`. -/
def setAt3Val (P : Json) (k2 k3 : String) (v : Json) : Option Json :=
  if isNullJ P then none
  else
    match P.get k2 with
    | none => none
    | some B2 =>
        if isNullJ B2 then none else some (P.set k2 (B2.set k3 v))

/-- `p.k2.k3.k4 = v` as an action on `p`. -/
def setAt4Val (P : Json) (k2 k3 k4 : String) (v : Json) : Option Json :=
  if isNullJ P then none
  else
    match P.get k2 with
    | none => none
    | some B2 =>
        if isNullJ B2 then none
        else
          match B2.get k3 with
          | none => none
          | some B3 =>
              if isNullJ B3 then none
              else some (P.set k2 (B2.set k3 (B3.set k4 v)))

/-- Reading `p.k2.k3` as an action on `p`. -/
def readAt3Val (P : Json) (k2 k3 : String) : Option (Option Json) :=
  if isNullJ P then none
  else
    match P.get k2 with
    | none => none
    | some B2 => if isNullJ B2 then none else some (B2.get k3)

/-- The plugin statements as an action on the `plugins` subtree. -/
def plVal : Option Json → Option Json
  | none => none
  | some P => do
      let P1 ← orAt2Val P "entries" (.obj [])
      let P2 ← orAt2Val P1 "load" (.obj [])
      let P3 ← orAt3Val P2 "load" "paths" (.arr [] [])
      let pv ← readAt3Val P3 "load" "paths"
      let inc ← jsIncludes pv extensionsPath
      let P4 ←
        if inc then pure P3
        else
          match pv with
          | some (.arr es ps) =>
              setAt3Val P3 "load" "paths" (.arr (es ++ [.str extensionsPath]) ps)
          | _ => none
      let P5 ← orAt3Val P4 "entries" "trace-model" (.obj [])
      setAt4Val P5 "entries" "trace-model" "enabled" (.bool true)

/-- The gateway statements as an action on the `gateway` subtree. -/
def gwVal (env : PatchEnv) : Option Json → Option Json
  | none => none
  | some G => do
      let G1 ← setAt2Val G "port" (.num 18789)
      let G2 ← setAt2Val G1 "mode" (.str "local")
      let G3 ← setAt2Val G2 "trustedProxies" (.arr [.str "10.1.0.0"] [])
      let G4 ←
        if optStrTruthy env.openclaw_gateway_token then do
          let Ga ← orAt2Val G3 "auth" (.obj [])
          setAt3Val Ga "auth" "token" (.str (env.openclaw_gateway_token.getD ""))
        else pure G3
      if env.openclaw_dev_mode = some "true" then do
        let Gb ← orAt2Val G4 "controlUi" (.obj [])
        setAt3Val Gb "controlUi" "allowInsecureAuth" (.bool true)
      else pure G4

/-- The model-override statements as an action on the `models` subtree. -/
def mVal (pname : String) (entry : Json) (mo : Option Json) : Option Json := do
  let M2 ← orAt2Val (ensVal mo) "providers" (.obj [])
  setAt3Val M2 "providers" pname entry

/-- The model-override statements as an action on the `agents` subtree. -/
def aVal (mref : Json) (ao : Option Json) : Option Json := do
  let A2 ← orAt2Val (ensVal ao) "defaults" (.obj [])
  setAt3Val A2 "defaults" "model" mref

/-- The Telegram block as an action on the `channels` subtree (token
present). -/
def tgVal (env : PatchEnv) (C : Json) : Option Json := do
  let C1 ← setAt2Val C "telegram" (telegramBaseObj env)
  if optStrTruthy env.telegram_dm_allow_from then
    setAt3Val C1 "telegram" "allowFrom"
      (.arr ((jsSplitChar (env.telegram_dm_allow_from.getD "") ',').map .str) [])
  else if telegramDmPolicy env = "open" then
    setAt3Val C1 "telegram" "allowFrom" (.arr [.str "*"] [])
  else pure C1

/-- The Discord block as an action on the `channels` subtree (token
present). -/
def dcVal (env : PatchEnv) (C : Json) : Option Json :=
  setAt2Val C "discord" (discordObj env)

/-- The Slack block as an action on the `channels` subtree (both tokens
present). -/
def slVal (env : PatchEnv) (C : Json) : Option Json :=
  setAt2Val C "slack" (slackObj env)

/-- The three channel blocks combined, as an action on `channels`. -/
def chansVal (env : PatchEnv) (C : Json) : Option Json := do
  let C1 ← if optStrTruthy env.telegram_bot_token then tgVal env C else pure C
  let C2 ← if optStrTruthy env.discord_bot_token then dcVal env C1 else pure C1
  if optStrTruthy env.slack_bot_token = true ∧ optStrTruthy env.slack_app_token = true then
    slVal env C2
  else pure C2

/-- Inputs for the patch-idempotence instance: an environment with every
feature active and a document with data in each touched subtree. -/
def exEnvC3 : PatchEnv :=
  { openclaw_gateway_token := some "gw-secret-2"
    openclaw_dev_mode := some "true"
    cf_ai_gateway_model := some "workers-ai/llama-3.3"
    cf_ai_gateway_account_id := some "acct-1"
    cf_ai_gateway_gateway_id := some "gwid-1"
    cloudflare_ai_gateway_api_key := some "cf-key"
    cf_account_id := none
    telegram_bot_token := some "55:tgtok"
    telegram_dm_policy := some "open"
    telegram_dm_allow_from := none
    discord_bot_token := some "dc-tok"
    discord_dm_policy := some "pairing"
    slack_bot_token := some "xoxb-1"
    slack_app_token := some "xapp-1" }

def exDocC3 : Json :=
  .obj [("channels", .obj [("telegram", .obj [("stale", .num 1)])]),
        ("plugins", .obj [("load", .obj [("paths", .arr [.str "/keep"] [])])]),
        ("gateway", .obj [("auth", .obj [("token", .str "old")])]),
        ("models", .obj [])]

def exRC3 : Json := (patchConfig exEnvC3 exDocC3).getD .null

/-! ## Legacy auth-store migration

Embeds `isJwt`, `decodeJwtPayload`, `ensureStoreShape` and
`migrateLegacyIntoStore` from the `EOFCODEX` heredoc of
`start-openclaw.sh`, and the file-level migration step they perform: the
store file is rewritten as `ensureStoreShape (migrateLegacyIntoStore raw)`
when the legacy migration applies and left untouched otherwise. -/

/-- The character class of `/^[A-Za-z0-9_-]+\.[A-Za-z0-9_-]+\.[A-Za-z0-9_-]+$/`. -/
def isB64UrlChar (ch : Char) : Bool :=
  ('a' ≤ ch && ch ≤ 'z') || ('A' ≤ ch && ch ≤ 'Z') || ('0' ≤ ch && ch ≤ '9') ||
  ch = '_' || ch = '-'

/-- `isJwt`: exactly three non-empty base64url segments joined by dots. -/
def isJwt (t : String) : Bool :=
  match jsSplitChar t '.' with
  | [a, b, c] =>
      a ≠ "" && b ≠ "" && c ≠ "" &&
      a.data.all isB64UrlChar && b.data.all isB64UrlChar && c.data.all isB64UrlChar
  | _ => false

def b64Val (c : Char) : Option Nat :=
  if 'A' ≤ c ∧ c ≤ 'Z' then some (c.toNat - 'A'.toNat)
  else if 'a' ≤ c ∧ c ≤ 'z' then some (c.toNat - 'a'.toNat + 26)
  else if '0' ≤ c ∧ c ≤ '9' then some (c.toNat - '0'.toNat + 52)
  else if c = '+' then some 62
  else if c = '/' then some 63
  else none

/-- Base64 bit accumulation (`Buffer.from(-, 'base64')` on the well-formed
inputs this development exercises; Node's tolerance of malformed base64 is
not modelled — a malformed payload already yields `null` via the
`JSON.parse` failure path either way). -/
def b64DecodeAux : List Char → Nat → Nat → List Nat → Option (List Nat)
  | [], _, _, out => some out.reverse
  | c :: rest, acc, nbits, out =>
      match b64Val c with
      | none => none
      | some v =>
          let acc2 := acc * 64 + v
          let nbits2 := nbits + 6
          if 8 ≤ nbits2 then
            b64DecodeAux rest (acc2 % 2 ^ (nbits2 - 8)) (nbits2 - 8)
              (acc2 / 2 ^ (nbits2 - 8) :: out)
          else b64DecodeAux rest acc2 nbits2 out

def b64Decode (cs : List Char) : Option (List Nat) :=
  b64DecodeAux (cs.takeWhile (· ≠ '=')) 0 0 []

/-- UTF-8 decoding of a byte list (`Buffer.prototype.toString('utf8')`);
invalid sequences fail (`none`) where Node would emit replacement
characters — only ASCII payloads are exercised here. -/
def utf8Decode : List Nat → Option (List Char)
  | [] => some []
  | b :: rest =>
      if b < 0x80 then do
        let tail ← utf8Decode rest
        pure (unitChar b :: tail)
      else if 0xc2 ≤ b ∧ b < 0xe0 then
        match rest with
        | b2 :: rest2 =>
            if 0x80 ≤ b2 ∧ b2 < 0xc0 then do
              let tail ← utf8Decode rest2
              pure (unitChar ((b - 0xc0) * 64 + (b2 - 0x80)) :: tail)
            else none
        | _ => none
      else if 0xe0 ≤ b ∧ b < 0xf0 then
        match rest with
        | b2 :: b3 :: rest3 =>
            if (0x80 ≤ b2 ∧ b2 < 0xc0) ∧ (0x80 ≤ b3 ∧ b3 < 0xc0) then do
              let tail ← utf8Decode rest3
              pure (unitChar (((b - 0xe0) * 64 + (b2 - 0x80)) * 64 + (b3 - 0x80)) :: tail)
            else none
        | _ => none
      else if 0xf0 ≤ b ∧ b < 0xf5 then
        match rest with
        | b2 :: b3 :: b4 :: rest4 =>
            if (0x80 ≤ b2 ∧ b2 < 0xc0) ∧ (0x80 ≤ b3 ∧ b3 < 0xc0) ∧
                (0x80 ≤ b4 ∧ b4 < 0xc0) then do
              let tail ← utf8Decode rest4
              pure (unitChar ((((b - 0xf0) * 64 + (b2 - 0x80)) * 64 + (b3 - 0x80)) * 64 +
                (b4 - 0x80)) :: tail)
            else none
        | _ => none
      else none
termination_by bs => bs.length
decreasing_by all_goals simp_arith

/-- `decodeJwtPayload`: split, base64url → base64, pad, decode, parse;
`none` is the `null` of every failure path. -/
def decodeJwtPayload (t : String) : Option Json :=
  match jsSplitChar t '.' with
  | [_, payload, _] =>
      let b64 := payload.data.map (fun c => if c = '-' then '+' else if c = '_' then '/' else c)
      let pad := b64 ++ List.replicate ((4 - b64.length % 4) % 4) '='
      match b64Decode pad with
      | none => none
      | some bytes =>
          match utf8Decode bytes with
          | none => none
          | some chars => parseJsonText ⟨chars⟩
  | _ => none

mutual

/-- JavaScript `String(v)` on a JSON-shaped value.  Number rendering is
exact for integers; non-integral rationals (never exercised by a claim)
render as `num/den`. -/
def jsToString : Json → String
  | .null => "null"
  | .bool b => if b then "true" else "false"
  | .num q => if q.den = 1 then toString q.num else toString q
  | .str s => s
  | .arr es _ => jsJoinComma es
  | .obj _ => "[object Object]"

/-- `Array.prototype.toString` = `join(',')` (with JavaScript's empty
rendering of `null` elements). -/
def jsJoinComma : List Json → String
  | [] => ""
  | [j] => (match j with | .null => "" | v => jsToString v)
  | j :: rest => (match j with | .null => "" | v => jsToString v) ++ "," ++ jsJoinComma rest

end

/-- `Object.entries(v)` for the values the migration loop can receive:
object members in insertion order; array indices (then expando
properties) for arrays. -/
def entriesOf : Json → List (String × Json)
  | .obj ms => ms
  | .arr es ps => (es.enum.map (fun p => (toString p.1, p.2))) ++ ps
  | _ => []

/-- The first truthy value of a `||` chain whose final fallback is `''`. -/
def firstTruthyJson : List (Option Json) → Json
  | [] => .str ""
  | v :: rest =>
      match v with
      | some x => if x.truthy then x else firstTruthyJson rest
      | none => firstTruthyJson rest

/-- JavaScript `Number(v)` (`none` = `NaN`).  String conversion covers the
decimal grammar; array/object-to-primitive coercion and hex/`Infinity`
forms are not modelled (no claim exercises them — every store this
development evaluates has version absent or `1`). -/
def jsNumber : Json → Option Rat
  | .null => some 0
  | .bool b => some (if b then 1 else 0)
  | .num q => some q
  | .str s =>
      let t := jsTrim s
      if t = "" then some 0
      else
        match jparseNumber t.data with
        | some (q, []) => some q
        | _ =>
            match t.data with
            | '-' :: rest =>
                (match jparseNumber rest with
                 | some (q, []) => some (-q)
                 | _ => none)
            | '+' :: rest =>
                (match jparseNumber rest with
                 | some (q, []) => some q
                 | _ => none)
            | _ => none
  | .arr _ _ => none
  | .obj _ => none

/-- `Number(raw.version || 1) || 1` of `ensureStoreShape`. -/
def storeVersionOf (raw : Json) : Rat :=
  let base : Json :=
    match raw.get "version" with
    | some v => if v.truthy then v else .num 1
    | none => .num 1
  match jsNumber base with
  | some q => if q = 0 then 1 else q
  | none => 1

/-- A field copied verbatim by `ensureStoreShape` when present (its
`undefined` is dropped by the JSON write). -/
def optField (raw : Json) (k : String) : List (String × Json) :=
  match raw.get k with
  | some v => [(k, v)]
  | none => []

/-- The discriminator `raw.profiles && typeof raw.profiles === 'object'`. -/
def profilesIsStoreObj (raw : Json) : Bool :=
  match raw.get "profiles" with
  | some p => p.truthy && p.isObjectType
  | none => false

/-- `raw.profiles` is truthy (any type). -/
def profilesTruthy (raw : Json) : Bool :=
  match raw.get "profiles" with
  | some p => p.truthy
  | none => false

/-- `ensureStoreShape`, as observed through the JSON write (fields holding
`undefined` are dropped, the others keep the literal's order). -/
def ensureStoreShape (raw : Json) : Json :=
  if raw.truthy && raw.isObjectType && profilesIsStoreObj raw then
    .obj ([("version", .num (storeVersionOf raw)),
           ("profiles", (raw.get "profiles").getD .null)] ++
          optField raw "order" ++ optField raw "lastGood" ++ optField raw "usageStats")
  else .obj [("version", .num 1), ("profiles", .obj [])]

/-- One iteration of the migration loop: fold a legacy entry into the
accumulated `out.profiles` member list. -/
def migrateEntry (profiles : List (String × Json)) (entry : String × Json) :
    List (String × Json) :=
  let (id, cred) := entry
  if ¬ cred.truthy ∨ ¬ cred.isObjectType then profiles
  else
    let providerId := jsTrim (jsToString (firstTruthyJson
      [cred.get "provider", some (.str ((jsSplitChar id ':').headD ""))]))
    if providerId = "" then profiles
    else
      let apiKey := jsTrim (jsToString (firstTruthyJson
        [cred.get "apiKey", cred.get "key", cred.get "token"]))
      if apiKey = "" then profiles
      else
        let profileId := providerId ++ ":default"
        if providerId = "openai-codex" then
          let payload :=
            if isJwt apiKey then (decodeJwtPayload apiKey).getD (.obj []) else .obj []
          let expire : List (String × Json) :=
            match payload.get "exp" with
            | some (.num q) => if q * 1000 = 0 then [] else [("expires", .num (q * 1000))]
            | _ => []
          setAssoc profileId
            (.obj ([("type", .str "token"), ("provider", .str providerId),
                    ("token", .str apiKey)] ++ expire)) profiles
        else
          setAssoc profileId
            (.obj [("type", .str "api_key"), ("provider", .str providerId),
                   ("key", .str apiKey)]) profiles

/-- `migrateLegacyIntoStore` (`none` is the JavaScript `null` return). -/
def migrateLegacyIntoStore (raw : Json) : Option Json :=
  if !raw.truthy || !raw.isObjectType || profilesTruthy raw then none
  else
    let profiles := (entriesOf raw).foldl migrateEntry []
    if profiles.isEmpty then none
    else some (.obj [("version", .num 1), ("profiles", .obj profiles)])

/-- The file-level migration the `EOFCODEX` step performs on
`auth-profiles.json`: rewrite the store as the shape-normalized migration
result when the legacy migration applies, leave the file untouched
otherwise. -/
def migrateStoreFile (raw : Json) : Json :=
  match migrateLegacyIntoStore raw with
  | some m => ensureStoreShape m
  | none => raw

/-! ## The R2 sync entry point

Embeds `syncToR2` of `src/gateway/sync.ts`.  The sandbox is abstracted by
the single capability the function uses: `exec`, a map from the command
string to its `ExecResult`.  `syncToR2Run` additionally returns the list
of commands issued, in order, which is how the remote-layout claim
observes where the data is written. -/

structure ExecOutcome where
  success : Bool
  stdout : String
  stderr : String

structure SyncEnv where
  r2_access_key_id : Option String
  r2_secret_access_key : Option String
  cf_account_id : Option String
  r2_bucket_name : Option String

/-- Modelled from the spec: `getR2BucketName` lives in `src/config`, which
is not part of the sources here; the spec lists "object-store credentials
and bucket name" among the recognized environment inputs, the test suite
shows `R2_BUCKET_NAME` selecting a custom bucket, and the start script
defaults the bucket to `moltbot-data`. -/
def getR2BucketName (env : SyncEnv) : String :=
  if optStrTruthy env.r2_bucket_name then env.r2_bucket_name.getD ""
  else "moltbot-data"

structure SyncResult where
  success : Bool
  lastSync : Option String
  error : Option String
  details : Option String
deriving Repr

/-- The rclone-config heredoc command of `rcloneConfigCmd()` (credentials
stay in env vars; `$`-references are literal in the command string). -/
def rcloneConfigCmd : String :=
  "mkdir -p /root/.config/rclone && cat > /root/.config/rclone/rclone.conf << EOF\n" ++
  "[r2]\n" ++
  "type = s3\n" ++
  "provider = Cloudflare\n" ++
  "access_key_id = $R2_ACCESS_KEY_ID\n" ++
  "secret_access_key = $R2_SECRET_ACCESS_KEY\n" ++
  "endpoint = https://$CF_ACCOUNT_ID.r2.cloudflarestorage.com\n" ++
  "acl = private\n" ++
  "EOF"

/-- The config-dir detection command. -/
def checkConfigCmd : String :=
  "test -f /root/.openclaw/openclaw.json && echo openclaw || " ++
  "(test -f /root/.clawdbot/clawdbot.json && echo clawdbot || echo none)"

/-- The exclude flags of the config sync. -/
def syncExcludes : String :=
  "--exclude '.git/**' --exclude '*.lock' --exclude '*.log' --exclude '*.tmp'"

/-- The config sync command: whatever the source directory, the target is
the `openclaw/` prefix of the remote. -/
def configSyncCmd (configDir remote : String) : String :=
  "rclone sync " ++ configDir ++ "/ " ++ remote ++
  "/openclaw/ --transfers=8 --fast-list --s3-no-check-bucket " ++ syncExcludes

def workspaceSyncCmd (remote : String) : String :=
  "[ -d /root/clawd ] && rclone sync /root/clawd/ " ++ remote ++
  "/workspace/ --transfers=8 --fast-list --s3-no-check-bucket " ++
  "--exclude 'skills/**' --exclude '.git/**' || true"

def skillsSyncCmd (remote : String) : String :=
  "[ -d /root/clawd/skills ] && rclone sync /root/clawd/skills/ " ++ remote ++
  "/skills/ --transfers=8 --fast-list --s3-no-check-bucket || true"

def writeMarkerCmd (remote : String) : String :=
  "date -Iseconds | rclone rcat " ++ remote ++ "/.last-sync"

/-- `syncToR2`, instrumented with the ordered list of commands passed to
`sandbox.exec` (`now` stands for `new Date().toISOString()`). -/
def syncToR2Run (env : SyncEnv) (exec : String → ExecOutcome) (now : String) :
    SyncResult × List String :=
  if ¬ optStrTruthy env.r2_access_key_id ∨ ¬ optStrTruthy env.r2_secret_access_key ∨
      ¬ optStrTruthy env.cf_account_id then
    ({ success := false, lastSync := none,
       error := some "R2 storage is not configured", details := none }, [])
  else
    let remote := "r2:" ++ getR2BucketName env
    let configResult := exec rcloneConfigCmd
    if ¬ configResult.success then
      ({ success := false, lastSync := none,
         error := some "Failed to create rclone config",
         details := some configResult.stderr }, [rcloneConfigCmd])
    else
      let check := exec checkConfigCmd
      let configType := jsTrim check.stdout
      if configType = "none" then
        ({ success := false, lastSync := none,
           error := some "Sync aborted: no config file found",
           details := some "Neither openclaw.json nor clawdbot.json found in config directory." },
         [rcloneConfigCmd, checkConfigCmd])
      else
        let configDir := if configType = "openclaw" then "/root/.openclaw" else "/root/.clawdbot"
        let configSync := exec (configSyncCmd configDir remote)
        if ¬ configSync.success then
          ({ success := false, lastSync := none,
             error := some "Config sync failed", details := some configSync.stderr },
           [rcloneConfigCmd, checkConfigCmd, configSyncCmd configDir remote])
        else
          let _ := exec (workspaceSyncCmd remote)
          let _ := exec (skillsSyncCmd remote)
          let _ := exec (writeMarkerCmd remote)
          ({ success := true, lastSync := some now, error := none, details := none },
           [rcloneConfigCmd, checkConfigCmd, configSyncCmd configDir remote,
            workspaceSyncCmd remote, skillsSyncCmd remote, writeMarkerCmd remote])

/-- `syncToR2` proper: the structured result the caller receives. -/
def syncToR2 (env : SyncEnv) (exec : String → ExecOutcome) (now : String) : SyncResult :=
  (syncToR2Run env exec now).1

/-! ## Serialization of the auth-state summary

`JSON.stringify` of the summary object, with its fields in insertion
order — the form in which the HTTP route and the tests observe it (the
secrecy claim is about this serialized text). -/

/-- One hex digit (lowercase). -/
def hexDigitChar (hd : Nat) : Char :=
  if hd < 10 then Char.ofNat ('0'.toNat + hd) else Char.ofNat ('a'.toNat + hd - 10)

/-- `JSON.stringify` escaping of one character. -/
def escapeJsonChar (ch : Char) : List Char :=
  if ch = '"' then ['\\', '"']
  else if ch = '\\' then ['\\', '\\']
  else if ch = '\n' then ['\\', 'n']
  else if ch = '\r' then ['\\', 'r']
  else if ch = '\t' then ['\\', 't']
  else if ch = Char.ofNat 8 then ['\\', 'b']
  else if ch = Char.ofNat 12 then ['\\', 'f']
  else if ch.toNat < 0x20 then
    ['\\', 'u', '0', '0', hexDigitChar (ch.toNat / 16), hexDigitChar (ch.toNat % 16)]
  else [ch]

def escapeJsonList : List Char → List Char
  | [] => []
  | c :: rest => escapeJsonChar c ++ escapeJsonList rest

/-- A JSON string literal. -/
def encStr (s : String) : String := "\"" ++ ⟨escapeJsonList s.data⟩ ++ "\""

/-- A nullable JSON string. -/
def encOptStr : Option String → String
  | none => "null"
  | some s => encStr s

def encBool (b : Bool) : String := if b then "true" else "false"

def encStrItems : List String → String
  | [] => ""
  | [s] => encStr s
  | s :: rest => encStr s ++ "," ++ encStrItems rest

/-- A JSON array of strings. -/
def encStrList (l : List String) : String := "[" ++ encStrItems l ++ "]"

/-- `JSON.stringify` of an `AuthStateSummary`. -/
def serializeAuthStateSummary (s : AuthStateSummary) : String :=
  "\x7b\"primary_model\":" ++ encOptStr s.primary_model ++
  ",\"primary_provider\":" ++ encOptStr s.primary_provider ++
  ",\"agent_id\":" ++ encStr s.agent_id ++
  ",\"auth_profiles_present\":" ++ encBool s.auth_profiles_present ++
  ",\"providers_with_profiles\":" ++ encStrList s.providers_with_profiles ++
  ",\"has_legacy_oauth_import_file\":" ++ encBool s.has_legacy_oauth_import_file ++
  ",\"mismatch_detected\":" ++ encBool s.mismatch_detected ++
  "\x7d"

/-- The character alphabet that the serialized summary can draw on outside
its config-derived fields (`primary_model`) and the caller-chosen agent
id: provider-token characters plus JSON punctuation. -/
def isSummaryBaseChar (c : Char) : Bool :=
  isProviderChar c || c = '"' || c = ':' || c = ',' || c = '[' || c = ']' ||
  c = Char.ofNat 0x7b || c = Char.ofNat 0x7d || c = '\\'

/-! ## Concrete migration and secrecy inputs -/

/-- A signed-token-shaped credential whose payload decodes to
`\x7b"exp":123\x7d`. -/
def exampleJwt : String := "eyJhbGciOiJIUzI1NiJ9.eyJleHAiOjEyM30.sig"

/-- A flat legacy auth store: one profile id mapped to a
`\x7bprovider, apiKey\x7d` record. -/
def legacyStoreExample : Json :=
  .obj [("openai-codex:work", .obj [("provider", .str "openai-codex"),
                                    ("apiKey", .str exampleJwt)])]

/-- The canonical versioned store the migration should produce from
`legacyStoreExample`. -/
def migratedStoreExample : Json :=
  .obj [("version", .num 1),
        ("profiles", .obj [("openai-codex:default",
          .obj [("type", .str "token"),
                ("provider", .str "openai-codex"),
                ("token", .str exampleJwt),
                ("expires", .num 123000)])])]

/-- An auth-store text whose only credential value textually coincides
with its provider name — the input on which the literal no-leakage claim
fails. -/
def leakStoreText : String :=
  "\x7b\"profiles\":\x7b\"x\":\x7b\"provider\":\"anthropic\",\"apiKey\":\"anthropic\"\x7d\x7d\x7d"

/-- An auth-store text whose credential value `sk!secret` contains a
character outside the summary's reachable alphabet. -/
def authTextSecretEx : String :=
  "\x7b\"profiles\":\x7b\"x\":\x7b\"provider\":\"openai-codex\",\"apiKey\":\"sk!secret\"\x7d\x7d\x7d"
/-! ## Theorems for C1 and C9 -/

/-- C1: for every pair of remote and local sync-marker values,
`should_restore_from_r2` returns true iff the remote marker is present
(non-empty) and either the local marker is absent or the remote marker's
parsed epoch is strictly greater than the local one's, unparsable
timestamps counting as epoch 0 on both sides. -/
theorem restore_decision_iff (parseDate : String → Option Int)
    (r2Time localTime : String) :
    should_restore_from_r2 parseDate r2Time localTime = true ↔
      r2Time ≠ "" ∧
        (localTime = "" ∨ epochOf parseDate r2Time > epochOf parseDate localTime) := by
  unfold should_restore_from_r2
  by_cases h1 : r2Time = "" <;> by_cases h2 : localTime = "" <;>
    simp [h1, h2, decide_eq_true_eq]

/-- C9: whenever enumeration of the tracked processes succeeds, the
force-restart handler returns `ok = true` with `killed` equal to the number
of enumerated processes, regardless of how many individual kill attempts
fail and regardless of the cleanup pass's outcome — never a partial
failure. -/
theorem forceRestart_always_counts (procs : List TrackedProc) (cleanup : CleanupPass) :
    forceRestartHandler (.ok procs) cleanup =
      { ok := true, killed := some procs.length, error := none,
        message := some "All processes killed. Gateway will restart on next request." } := by
  rfl


/-! ## Provider-shape lemmas -/

/-- A successful `MODEL_PROVIDER_RE` match starts with an alphanumeric
character. -/
theorem modelProviderMatch_shape {s p : String} (h : modelProviderMatch s = some p) :
    ∃ c rest, p.data = c :: rest ∧ isProviderStart c = true := by
  simp only [modelProviderMatch] at h
  repeat' split at h
  all_goals simp_all
  rename_i x tail1 pre c tail hdrop htake hcond
  exact ⟨c, ⟨tail, by rw [← h]⟩, hcond.1⟩

/-- Every character of a `MODEL_PROVIDER_RE` capture is a provider-token
character. -/
theorem modelProviderMatch_chars {s p : String} (h : modelProviderMatch s = some p) :
    ∀ c ∈ p.data, isProviderChar c = true := by
  simp only [modelProviderMatch] at h
  repeat' split at h
  all_goals simp_all
  rename_i x tail1 pre c tail hdrop htake hcond
  intro x hx
  rw [← h] at hx
  have : x ∈ List.takeWhile isProviderChar s.data := by rw [htake]; exact hx
  exact List.mem_takeWhile_imp this

theorem providerFromModelRef_shape {m : Option String} {p : String}
    (h : providerFromModelRef m = some p) :
    ∃ c rest, p.data = c :: rest ∧ isProviderStart c = true := by
  cases m with
  | none => simp [providerFromModelRef] at h
  | some s =>
      simp only [providerFromModelRef] at h
      repeat' split at h
      all_goals simp_all
      obtain ⟨c, rest, h1, h2⟩ := modelProviderMatch_shape h
      exact ⟨c, ⟨rest, h1⟩, h2⟩

theorem providerFromModelRef_chars {m : Option String} {p : String}
    (h : providerFromModelRef m = some p) :
    ∀ c ∈ p.data, isProviderChar c = true := by
  cases m with
  | none => simp [providerFromModelRef] at h
  | some s =>
      simp only [providerFromModelRef] at h
      repeat' split at h
      all_goals simp_all
      exact modelProviderMatch_chars h

theorem providerFromModelRef_ne_empty {m : Option String} {p : String}
    (h : providerFromModelRef m = some p) : p ≠ "" := by
  obtain ⟨c, rest, hdata, -⟩ := providerFromModelRef_shape h
  intro hemp
  rw [hemp] at hdata
  simp at hdata

/-! ## Character-class lemmas -/

/-- No character with code in the provider range is JavaScript
whitespace. -/
theorem isJsSpace_false_of_range {d : Char} (h1 : 48 ≤ d.toNat) (h2 : d.toNat ≤ 122) :
    isJsSpace d = false := by
  unfold isJsSpace
  simp only [Bool.or_eq_false_iff, decide_eq_false_iff_not]
  repeat' apply And.intro
  all_goals intro h
  all_goals rw [h] at h1 h2
  all_goals first
    | exact absurd h1 (by decide)
    | exact absurd h2 (by decide)

/-- Lowercasing an alphanumeric character lands in the code range
`[48, 122]`. -/
theorem jsLowerChar_toNat_range {c : Char} (hc : isProviderStart c = true) :
    48 ≤ (jsLowerChar c).toNat ∧ (jsLowerChar c).toNat ≤ 122 := by
  unfold isProviderStart at hc
  simp only [Bool.or_eq_true, Bool.and_eq_true, decide_eq_true_eq] at hc
  unfold jsLowerChar
  rcases hc with (⟨ha, hb⟩ | ⟨ha, hb⟩) | ⟨ha, hb⟩
  · have h1 : 97 ≤ c.toNat := Char.le_def.mp ha
    have h2 : c.toNat ≤ 122 := Char.le_def.mp hb
    rw [if_neg]
    · exact ⟨by omega, by omega⟩
    · rintro ⟨-, hz⟩
      have h3 : c.toNat ≤ 90 := Char.le_def.mp hz
      omega
  · have h1 : 65 ≤ c.toNat := Char.le_def.mp ha
    have h2 : c.toNat ≤ 90 := Char.le_def.mp hb
    rw [if_pos ⟨ha, hb⟩]
    have hv : (c.toNat + 32).isValidChar := Or.inl (by omega)
    have heq : (Char.ofNat (c.toNat + 32)).toNat = c.toNat + 32 := by
      rw [Char.ofNat, dif_pos hv]
      rfl
    rw [heq]
    exact ⟨by omega, by omega⟩
  · have h1 : 48 ≤ c.toNat := Char.le_def.mp ha
    have h2 : c.toNat ≤ 57 := Char.le_def.mp hb
    rw [if_neg]
    · exact ⟨by omega, by omega⟩
    · rintro ⟨hz, -⟩
      have h3 : 65 ≤ c.toNat := Char.le_def.mp hz
      omega

/-- Whitespace characters are fixed by lowercasing. -/
theorem jsLowerChar_of_space {x : Char} (hx : isJsSpace x = true) : jsLowerChar x = x := by
  unfold isJsSpace at hx
  simp only [Bool.or_eq_true, decide_eq_true_eq] at hx
  rcases hx with ((((((((h | h) | h) | h) | h) | h) | h) | h) | h) | h
  all_goals subst h
  all_goals decide

/-! ## Token-boundary scan lemmas -/

theorem matchCaseFold_cons {c : Char} {ns l rest : List Char}
    (h : matchCaseFold (c :: ns) l = some rest) :
    ∃ x xs, l = x :: xs ∧ jsLowerChar c = jsLowerChar x := by
  cases l with
  | nil => simp [matchCaseFold] at h
  | cons x xs =>
      refine ⟨x, xs, rfl, ?_⟩
      by_contra hne
      simp [matchCaseFold, hne] at h

/-- A successful token scan exhibits a character of the haystack that
case-folds to the needle's head. -/
theorem tokenScan_mem {c : Char} {ns : List Char} :
    ∀ {l : List Char} {prevOk : Bool},
      tokenBoundaryScan (c :: ns) prevOk l = true →
      ∃ x ∈ l, jsLowerChar c = jsLowerChar x := by
  intro l
  induction l with
  | nil => intro prevOk h; simp [tokenBoundaryScan] at h
  | cons y ys ih =>
      intro prevOk h
      unfold tokenBoundaryScan at h
      rw [Bool.or_eq_true] at h
      rcases h with h1 | h2
      · rw [Bool.and_eq_true] at h1
        have hm := h1.2
        cases hmc : matchCaseFold (c :: ns) (y :: ys) with
        | none => rw [hmc] at hm; simp at hm
        | some rest =>
            obtain ⟨x, xs, hx, hlow⟩ := matchCaseFold_cons hmc
            injection hx with hxy hxs
            rw [← hxy] at hlow
            exact ⟨y, List.mem_cons_self _ _, hlow⟩
      · obtain ⟨x, hx, hl⟩ := ih h2
        exact ⟨x, List.mem_cons_of_mem _ hx, hl⟩

/-- A string that trims to nothing is all whitespace. -/
theorem jsTrim_eq_empty {s : String} (h : jsTrim s = "") :
    ∀ x ∈ s.data, isJsSpace x = true := by
  intro x hx
  unfold jsTrim at h
  have hdata := congrArg String.data h
  simp only [String.data] at hdata
  rw [List.reverse_eq_nil_iff, List.dropWhile_eq_nil_iff] at hdata
  have hsplit := List.takeWhile_append_dropWhile (p := isJsSpace) (l := s.data)
  rw [← hsplit] at hx
  rcases List.mem_append.mp hx with h1 | h2
  · exact List.mem_takeWhile_imp h1
  · exact hdata x (List.mem_reverse.mpr h2)

/-- An auth-profile text that passes the token-boundary test for a derived
provider cannot be all whitespace. -/
theorem auth_text_present_of_token {authText p : String}
    (hpp : ∃ m, providerFromModelRef m = some p)
    (htok : hasProviderToken (some authText) (some p) = true) :
    jsTrim authText ≠ "" := by
  obtain ⟨m, hm⟩ := hpp
  obtain ⟨c, rest, hdata, hstart⟩ := providerFromModelRef_shape hm
  intro htrim
  simp only [hasProviderToken] at htok
  by_cases hcond : authText = "" ∨ p = ""
  · rw [if_pos hcond] at htok
    exact Bool.false_ne_true htok
  · rw [if_neg hcond] at htok
    rw [hdata] at htok
    obtain ⟨x, hx, hlow⟩ := tokenScan_mem htok
    have hsp : isJsSpace x = true := jsTrim_eq_empty htrim x hx
    have hfix : jsLowerChar x = x := jsLowerChar_of_space hsp
    rw [hfix] at hlow
    have hrange := jsLowerChar_toNat_range hstart
    have hfalse := isJsSpace_false_of_range hrange.1 hrange.2
    rw [hlow, hsp] at hfalse
    simp at hfalse

/-- The structural reading of `mismatch_detected`: a primary provider was
derived and is missing from the collected provider list. -/
theorem summarize_mismatch_iff (input : AuthStateInput) :
    ((summarizeAuthState input).mismatch_detected = true ↔
      ∃ p, (summarizeAuthState input).primary_provider = some p ∧
        p ∉ (summarizeAuthState input).providers_with_profiles) := by
  cases hpp : providerFromModelRef (getPrimaryModelFromConfig (parseJson input.configText)) with
  | none => simp [summarizeAuthState, hpp, optStrTruthy]
  | some p =>
      have hne : p ≠ "" := providerFromModelRef_ne_empty hpp
      simp [summarizeAuthState, hpp, optStrTruthy, hne]

/-- C2: `mismatch_detected` is true exactly when a primary provider is
derivable from the config's `agents.defaults.model` reference and that
provider is not among `providers_with_profiles`; in particular, with
primary model `openai-codex/gpt-5.3-codex` and a store holding only an
`anthropic` profile the summary reports a mismatch with
`providers_with_profiles = ["anthropic"]`, while a store holding an
`openai-codex` profile reports none. -/
theorem auth_mismatch_detection :
    (∀ input : AuthStateInput,
      (summarizeAuthState input).mismatch_detected = true ↔
        ∃ p, (summarizeAuthState input).primary_provider = some p ∧
          p ∉ (summarizeAuthState input).providers_with_profiles) ∧
    (summarizeAuthState
      ⟨some cfgTextCodex, some authTextAnthropicOnly, true, none⟩).mismatch_detected = true ∧
    (summarizeAuthState
      ⟨some cfgTextCodex, some authTextAnthropicOnly, true, none⟩).providers_with_profiles =
      ["anthropic"] ∧
    (summarizeAuthState
      ⟨some cfgTextCodex, some authTextCodex, false, none⟩).mismatch_detected = false := by
  refine ⟨summarize_mismatch_iff, ?_, ?_, ?_⟩ <;> decide

/-- C7: on an auth-profile text that is invalid JSON but still passes the
token-boundary containment test for the derived primary provider, the
summary still reports the store as present, lists the provider, and
detects no mismatch (and, being a total function, it does not raise). -/
theorem malformed_auth_profiles_resilience (configText authText p : String)
    (_hbad : parseJsonText authText = none)
    (hpp : providerFromModelRef
      (getPrimaryModelFromConfig (parseJson (some configText))) = some p)
    (htok : hasProviderToken (some authText) (some p) = true) :
    (summarizeAuthState
      ⟨some configText, some authText, false, none⟩).auth_profiles_present = true ∧
    p ∈ (summarizeAuthState
      ⟨some configText, some authText, false, none⟩).providers_with_profiles ∧
    (summarizeAuthState
      ⟨some configText, some authText, false, none⟩).mismatch_detected = false := by
  have hne : p ≠ "" := providerFromModelRef_ne_empty hpp
  have hpres : jsTrim authText ≠ "" := auth_text_present_of_token ⟨_, hpp⟩ htok
  refine ⟨?_, ?_, ?_⟩
  · simp [summarizeAuthState, hpres]
  · simp [summarizeAuthState, hpp, hne, htok]
    by_cases hmem : p ∈ collectProviders (parseJson (some authText)) [] "" <;> simp [hmem]
  · simp [summarizeAuthState, hpp, optStrTruthy, hne, htok]
    by_cases hmem : p ∈ collectProviders (parseJson (some authText)) [] "" <;> simp [hmem]

/-- Witness for C7 at the truncated store text of the test suite. -/
theorem malformed_auth_profiles_resilience_witness :
    ((parseJsonText authTextTruncated).isNone = true ∧
      providerFromModelRef
        (getPrimaryModelFromConfig (parseJson (some cfgTextCodex))) = some "openai-codex" ∧
      hasProviderToken (some authTextTruncated) (some "openai-codex") = true) ∧
    ((summarizeAuthState
      ⟨some cfgTextCodex, some authTextTruncated, false, none⟩).auth_profiles_present = true ∧
    "openai-codex" ∈ (summarizeAuthState
      ⟨some cfgTextCodex, some authTextTruncated, false, none⟩).providers_with_profiles ∧
    (summarizeAuthState
      ⟨some cfgTextCodex, some authTextTruncated, false, none⟩).mismatch_detected = false) :=
  ⟨⟨by rfl, by decide, by decide⟩,
    malformed_auth_profiles_resilience cfgTextCodex authTextTruncated "openai-codex"
      (by rfl) (by decide) (by decide)⟩

/-- C8: `syncToR2` answers every precondition failure with a structured
`success := false` result carrying a human-readable error (and details
where the source captures them), and answers the all-steps-succeed case
with `success := true` and a `lastSync` timestamp — it never throws. -/
theorem syncToR2_structured_results (env : SyncEnv) (exec : String → ExecOutcome)
    (now : String) :
    ((¬ optStrTruthy env.r2_access_key_id ∨ ¬ optStrTruthy env.r2_secret_access_key ∨
        ¬ optStrTruthy env.cf_account_id) →
      syncToR2 env exec now =
        { success := false, lastSync := none,
          error := some "R2 storage is not configured", details := none }) ∧
    (optStrTruthy env.r2_access_key_id → optStrTruthy env.r2_secret_access_key →
      optStrTruthy env.cf_account_id →
      ((exec rcloneConfigCmd).success = false →
        syncToR2 env exec now =
          { success := false, lastSync := none,
            error := some "Failed to create rclone config",
            details := some (exec rcloneConfigCmd).stderr }) ∧
      ((exec rcloneConfigCmd).success = true →
        (jsTrim (exec checkConfigCmd).stdout = "none" →
          syncToR2 env exec now =
            { success := false, lastSync := none,
              error := some "Sync aborted: no config file found",
              details := some "Neither openclaw.json nor clawdbot.json found in config directory." }) ∧
        (∀ configDir,
          jsTrim (exec checkConfigCmd).stdout ≠ "none" →
          configDir = (if jsTrim (exec checkConfigCmd).stdout = "openclaw"
            then "/root/.openclaw" else "/root/.clawdbot") →
          ((exec (configSyncCmd configDir ("r2:" ++ getR2BucketName env))).success = false →
            syncToR2 env exec now =
              { success := false, lastSync := none,
                error := some "Config sync failed",
                details := some (exec (configSyncCmd configDir
                  ("r2:" ++ getR2BucketName env))).stderr }) ∧
          ((exec (configSyncCmd configDir ("r2:" ++ getR2BucketName env))).success = true →
            syncToR2 env exec now =
              { success := true, lastSync := some now,
                error := none, details := none })))) := by
  constructor
  · intro hcreds
    unfold syncToR2 syncToR2Run
    rw [if_pos hcreds]
  · intro h1 h2 h3
    have hguard : ¬ (¬ optStrTruthy env.r2_access_key_id = true ∨
        ¬ optStrTruthy env.r2_secret_access_key = true ∨
        ¬ optStrTruthy env.cf_account_id = true) := by
      simp [h1, h2, h3]
    unfold syncToR2 syncToR2Run
    rw [if_neg hguard]
    constructor
    · intro hfail
      rw [if_pos (by simp [hfail])]
    · intro hok
      rw [if_neg (by simp [hok])]
      constructor
      · intro hnone
        rw [if_pos hnone]
      · intro configDir hnn hdir
        rw [if_neg hnn, ← hdir]
        constructor
        · intro hfail2
          rw [if_pos (by simp [hfail2])]
        · intro hok2
          rw [if_neg (by simp [hok2])]

/-- Witness for C8 in the all-steps-succeed case (an `exec` that succeeds
everywhere with a `clawdbot` detection is also the legacy-layout witness
environment). -/
theorem syncToR2_structured_results_witness :
    (syncToR2 ⟨some "k", some "s", some "a", none⟩ (fun _ => ⟨true, "openclaw", ""⟩) "T" =
      { success := true, lastSync := some "T", error := none, details := none }) ∧
    (syncToR2 ⟨none, some "s", some "a", none⟩ (fun _ => ⟨true, "", ""⟩) "T" =
      { success := false, lastSync := none,
        error := some "R2 storage is not configured", details := none }) := by
  constructor
  · exact ((((syncToR2_structured_results ⟨some "k", some "s", some "a", none⟩
      (fun _ => ⟨true, "openclaw", ""⟩) "T").2 (by decide) (by decide) (by decide)).2
      (by decide)).2 "/root/.openclaw" (by decide) (by decide)).2 (by decide)
  · exact (syncToR2_structured_results ⟨none, some "s", some "a", none⟩
      (fun _ => ⟨true, "", ""⟩) "T").1 (by simp [optStrTruthy])

set_option maxRecDepth 8192 in
/-- C10: when the current-format config file is absent but the legacy one
is present (the detection step prints `clawdbot`), `syncToR2` uses the
legacy directory `/root/.clawdbot` as the sync source yet still writes to
the current `openclaw/` remote prefix, and a successful run reports
success; concretely (default bucket), no issued command references a
`clawdbot` path under the remote. -/
theorem legacy_config_dir_syncs_to_openclaw_prefix
    (env : SyncEnv) (exec : String → ExecOutcome) (now : String)
    (h1 : optStrTruthy env.r2_access_key_id = true)
    (h2 : optStrTruthy env.r2_secret_access_key = true)
    (h3 : optStrTruthy env.cf_account_id = true)
    (hconf : (exec rcloneConfigCmd).success = true)
    (hcheck : jsTrim (exec checkConfigCmd).stdout = "clawdbot")
    (hsync : (exec (configSyncCmd "/root/.clawdbot"
      ("r2:" ++ getR2BucketName env))).success = true) :
    ((syncToR2Run env exec now).2 =
      [rcloneConfigCmd, checkConfigCmd,
       configSyncCmd "/root/.clawdbot" ("r2:" ++ getR2BucketName env),
       workspaceSyncCmd ("r2:" ++ getR2BucketName env),
       skillsSyncCmd ("r2:" ++ getR2BucketName env),
       writeMarkerCmd ("r2:" ++ getR2BucketName env)]) ∧
    (configSyncCmd "/root/.clawdbot" ("r2:" ++ getR2BucketName env) =
      "rclone sync /root/.clawdbot/ " ++ ("r2:" ++ getR2BucketName env) ++
      "/openclaw/ --transfers=8 --fast-list --s3-no-check-bucket " ++ syncExcludes) ∧
    ((syncToR2Run env exec now).1.success = true ∧
      (syncToR2Run env exec now).1.lastSync = some now) ∧
    (∀ cmd ∈ [rcloneConfigCmd, checkConfigCmd,
       configSyncCmd "/root/.clawdbot" "r2:moltbot-data",
       workspaceSyncCmd "r2:moltbot-data", skillsSyncCmd "r2:moltbot-data",
       writeMarkerCmd "r2:moltbot-data"],
      strContains cmd "r2:moltbot-data/clawdbot" = false) := by
  have hguard : ¬ (¬ optStrTruthy env.r2_access_key_id = true ∨
      ¬ optStrTruthy env.r2_secret_access_key = true ∨
      ¬ optStrTruthy env.cf_account_id = true) := by
    simp [h1, h2, h3]
  have hnn : jsTrim (exec checkConfigCmd).stdout ≠ "none" := by
    rw [hcheck]; decide
  have hnoc : ¬ jsTrim (exec checkConfigCmd).stdout = "openclaw" := by
    rw [hcheck]; decide
  have hrun : syncToR2Run env exec now =
      ({ success := true, lastSync := some now, error := none, details := none },
       [rcloneConfigCmd, checkConfigCmd,
        configSyncCmd "/root/.clawdbot" ("r2:" ++ getR2BucketName env),
        workspaceSyncCmd ("r2:" ++ getR2BucketName env),
        skillsSyncCmd ("r2:" ++ getR2BucketName env),
        writeMarkerCmd ("r2:" ++ getR2BucketName env)]) := by
    unfold syncToR2Run
    rw [if_neg hguard, if_neg (by simp [hconf]), if_neg hnn, if_neg hnoc,
      if_neg (by simp [hsync])]
  refine ⟨by rw [hrun], rfl, by rw [hrun]; exact ⟨rfl, rfl⟩, ?_⟩
  decide

set_option maxRecDepth 8192 in
/-- Witness for C10: a concrete sandbox whose detection step reports the
legacy layout and whose rclone steps succeed. -/
theorem legacy_config_dir_witness :
    ((syncToR2Run ⟨some "k", some "s", some "a", none⟩
      (fun c => if c = checkConfigCmd then ⟨true, "clawdbot\n", ""⟩ else ⟨true, "", ""⟩)
      "T").1.success = true) ∧
    ((syncToR2Run ⟨some "k", some "s", some "a", none⟩
      (fun c => if c = checkConfigCmd then ⟨true, "clawdbot\n", ""⟩ else ⟨true, "", ""⟩)
      "T").2 =
      [rcloneConfigCmd, checkConfigCmd,
       configSyncCmd "/root/.clawdbot" "r2:moltbot-data",
       workspaceSyncCmd "r2:moltbot-data", skillsSyncCmd "r2:moltbot-data",
       writeMarkerCmd "r2:moltbot-data"]) := by
  have h := legacy_config_dir_syncs_to_openclaw_prefix
    ⟨some "k", some "s", some "a", none⟩
    (fun c => if c = checkConfigCmd then ⟨true, "clawdbot\n", ""⟩ else ⟨true, "", ""⟩)
    "T" (by decide) (by decide) (by decide) (by decide) (by decide) (by decide)
  exact ⟨h.2.2.1.1, h.1⟩

/-! ## Migration lemmas and the C5 theorem -/

/-- `ensureStoreShape` fixes the canonical two-field store. -/
theorem ensureStoreShape_canonical (profiles : List (String × Json)) :
    ensureStoreShape (.obj [("version", .num 1), ("profiles", .obj profiles)]) =
      .obj [("version", .num 1), ("profiles", .obj profiles)] := rfl

/-- The legacy migration declines (returns `null`) on the canonical
versioned store. -/
theorem migrateLegacy_canonical_none (profiles : List (String × Json)) :
    migrateLegacyIntoStore (.obj [("version", .num 1), ("profiles", .obj profiles)]) =
      none := rfl

/-- A successful legacy migration always produces the canonical two-field
versioned store. -/
theorem migrateLegacy_some_shape {raw m : Json} (h : migrateLegacyIntoStore raw = some m) :
    ∃ profiles, m = Json.obj [("version", .num 1), ("profiles", .obj profiles)] := by
  simp only [migrateLegacyIntoStore] at h
  split at h
  · simp at h
  · split at h
    · simp at h
    · injection h with h2
      exact ⟨_, h2.symm⟩

set_option maxRecDepth 10000 in
/-- C5: the file-level legacy-store migration is idempotent on every
store, and on the example flat store it produces the canonical
`\x7bversion 1, profiles\x7d` shape with the credential keyed
`openai-codex:default` (its JWT expiry decoded into `expires`), which a
second migration leaves unchanged. -/
theorem legacy_migration_idempotent :
    (∀ raw : Json, migrateStoreFile (migrateStoreFile raw) = migrateStoreFile raw) ∧
    migrateStoreFile legacyStoreExample = migratedStoreExample ∧
    migrateStoreFile migratedStoreExample = migratedStoreExample := by
  refine ⟨?_, by with_unfolding_all rfl, by with_unfolding_all rfl⟩
  intro raw
  cases hm : migrateLegacyIntoStore raw with
  | none =>
      have h1 : migrateStoreFile raw = raw := by unfold migrateStoreFile; rw [hm]
      rw [h1, h1]
  | some m =>
      obtain ⟨profiles, rfl⟩ := migrateLegacy_some_shape hm
      have h1 : migrateStoreFile raw =
          .obj [("version", .num 1), ("profiles", .obj profiles)] := by
        unfold migrateStoreFile
        rw [hm]
        exact ensureStoreShape_canonical profiles
      rw [h1]
      unfold migrateStoreFile
      rw [migrateLegacy_canonical_none profiles]

/-! ## Secrecy of the serialized summary (C6) -/

theorem isProviderChar_toNat_lb {c : Char} (h : isProviderChar c = true) : 45 ≤ c.toNat := by
  unfold isProviderChar at h
  simp only [Bool.or_eq_true, Bool.and_eq_true, decide_eq_true_eq] at h
  rcases h with ((((h | h) | h) | h) | h) | h
  · exact le_trans (by decide) (Char.le_def.mp h.1)
  · exact le_trans (by decide) (Char.le_def.mp h.1)
  · exact le_trans (by decide) (Char.le_def.mp h.1)
  · subst h; decide
  · subst h; decide
  · subst h; decide

/-- Provider-token characters escape to themselves. -/
theorem escapeJsonChar_of_provider {c : Char} (h : isProviderChar c = true) :
    escapeJsonChar c = [c] := by
  have hge : 45 ≤ c.toNat := isProviderChar_toNat_lb h
  unfold escapeJsonChar
  rw [if_neg, if_neg, if_neg, if_neg, if_neg, if_neg, if_neg, if_neg]
  all_goals intro hc
  all_goals first
    | omega
    | (rw [hc] at h; exact absurd h (by decide))

theorem hexDigitChar_base {m : Nat} (h : m < 16) :
    isSummaryBaseChar (hexDigitChar m) = true := by
  interval_cases m <;> decide

/-- Escaping one character only ever emits that character or base-alphabet
characters. -/
theorem escapeJsonChar_chars {c x : Char} (hx : x ∈ escapeJsonChar c) :
    x = c ∨ isSummaryBaseChar x = true := by
  unfold escapeJsonChar at hx
  split_ifs at hx with h1 h2 h3 h4 h5 h6 h7 h8 <;>
    simp only [List.mem_cons, List.not_mem_nil, or_false] at hx
  · rcases hx with rfl | rfl <;> (right; decide)
  · rcases hx with rfl | rfl <;> (right; decide)
  · rcases hx with rfl | rfl <;> (right; decide)
  · rcases hx with rfl | rfl <;> (right; decide)
  · rcases hx with rfl | rfl <;> (right; decide)
  · rcases hx with rfl | rfl <;> (right; decide)
  · rcases hx with rfl | rfl <;> (right; decide)
  · rcases hx with rfl | rfl | rfl | rfl | rfl | rfl
    · right; decide
    · right; decide
    · right; decide
    · right; decide
    · exact Or.inr (hexDigitChar_base (by omega))
    · exact Or.inr (hexDigitChar_base (Nat.mod_lt _ (by omega)))
  · exact Or.inl hx

theorem escapeJsonList_chars {x : Char} :
    ∀ {l : List Char}, x ∈ escapeJsonList l → x ∈ l ∨ isSummaryBaseChar x = true := by
  intro l
  induction l with
  | nil => intro h; simp [escapeJsonList] at h
  | cons c rest ih =>
      intro h
      unfold escapeJsonList at h
      rcases List.mem_append.mp h with h1 | h2
      · rcases escapeJsonChar_chars h1 with rfl | hb
        · exact Or.inl (List.mem_cons_self _ _)
        · exact Or.inr hb
      · rcases ih h2 with h3 | h3
        · exact Or.inl (List.mem_cons_of_mem _ h3)
        · exact Or.inr h3

theorem encStr_chars {s : String} {x : Char} (hx : x ∈ (encStr s).data) :
    x ∈ s.data ∨ isSummaryBaseChar x = true := by
  unfold encStr at hx
  simp only [String.data_append] at hx
  rcases List.mem_append.mp hx with h1 | h1
  · rcases List.mem_append.mp h1 with h2 | h2
    · right
      simp at h2
      subst h2
      decide
    · exact escapeJsonList_chars h2
  · right
    simp at h1
    subst h1
    decide

/-- A string of provider-token characters serializes into the base
alphabet. -/
theorem encStr_chars_of_pchars {s : String} {x : Char}
    (hp : ∀ c ∈ s.data, isProviderChar c = true) (hx : x ∈ (encStr s).data) :
    isSummaryBaseChar x = true := by
  rcases encStr_chars hx with h | h
  · unfold isSummaryBaseChar
    rw [hp x h]
    rfl
  · exact h

theorem encOptStr_chars_of_pchars {o : Option String} {x : Char}
    (hp : ∀ s, o = some s → ∀ c ∈ s.data, isProviderChar c = true)
    (hx : x ∈ (encOptStr o).data) : isSummaryBaseChar x = true := by
  cases o with
  | none =>
      simp [encOptStr] at hx
      rcases hx with rfl | rfl | rfl | rfl <;> decide
  | some s => exact encStr_chars_of_pchars (hp s rfl) hx

theorem encBool_chars {b : Bool} {x : Char} (hx : x ∈ (encBool b).data) :
    isSummaryBaseChar x = true := by
  cases b <;> simp [encBool] at hx <;>
    (rcases hx with rfl | rfl | rfl | rfl | rfl <;> decide)

theorem encStrItems_chars {x : Char} :
    ∀ {l : List String}, (∀ s ∈ l, ∀ c ∈ s.data, isProviderChar c = true) →
      x ∈ (encStrItems l).data → isSummaryBaseChar x = true := by
  intro l
  induction l with
  | nil => intro _ hx; simp [encStrItems] at hx
  | cons s rest ih =>
      intro hall hx
      cases rest with
      | nil =>
          exact encStr_chars_of_pchars (hall s (List.mem_cons_self _ _)) hx
      | cons t ts =>
          unfold encStrItems at hx
          simp only [String.data_append] at hx
          rcases List.mem_append.mp hx with h1 | h1
          · rcases List.mem_append.mp h1 with h2 | h2
            · exact encStr_chars_of_pchars (hall s (List.mem_cons_self _ _)) h2
            · simp at h2
              subst h2
              decide
          · exact ih (fun u hu => hall u (List.mem_cons_of_mem _ hu)) h1

theorem encStrList_chars {l : List String} {x : Char}
    (hall : ∀ s ∈ l, ∀ c ∈ s.data, isProviderChar c = true)
    (hx : x ∈ (encStrList l).data) : isSummaryBaseChar x = true := by
  unfold encStrList at hx
  simp only [String.data_append] at hx
  rcases List.mem_append.mp hx with h1 | h1
  · rcases List.mem_append.mp h1 with h2 | h2
    · simp at h2; subst h2; decide
    · exact encStrItems_chars hall h2
  · simp at h1; subst h1; decide

theorem simpleProviderTest_chars {s : String} (h : simpleProviderTest s = true) :
    ∀ c ∈ s.data, isProviderChar c = true := by
  unfold simpleProviderTest at h
  intro c hc
  cases hd : s.data with
  | nil => rw [hd] at hc; simp at hc
  | cons a rest =>
      rw [hd] at h hc
      simp only [Bool.and_eq_true, List.all_eq_true] at h
      rcases List.mem_cons.mp hc with rfl | hm
      · have := h.1
        unfold isProviderStart at this
        unfold isProviderChar
        simp only [Bool.or_eq_true] at this ⊢
        tauto
      · exact h.2 c hm

theorem addProvider_pchars {out : List String} {mp : Option String}
    (hout : ∀ x ∈ out, ∀ c ∈ x.data, isProviderChar c = true) :
    ∀ x ∈ addProvider out mp, ∀ c ∈ x.data, isProviderChar c = true := by
  intro x hx
  simp only [addProvider] at hx
  split at hx
  · exact hout x hx
  · split at hx
    · exact hout x hx
    · split at hx
      · exact hout x hx
      · split at hx
        · exact hout x hx
        · rcases List.mem_append.mp hx with h1 | h1
          · exact hout x h1
          · simp at h1
            subst h1
            rename_i hcond _
            rw [not_or] at hcond
            have := hcond.2
            rw [Decidable.not_not] at this
            exact simpleProviderTest_chars this

mutual

/-- `collectProviders` only ever adds strings of provider-token
characters. -/
theorem collectProviders_pchars :
    ∀ (v : Json) (out : List String) (pk : String),
      (∀ x ∈ out, ∀ c ∈ x.data, isProviderChar c = true) →
      ∀ x ∈ collectProviders v out pk, ∀ c ∈ x.data, isProviderChar c = true
  | .str s, out, pk, hout => by
      unfold collectProviders
      apply addProvider_pchars
      split
      · exact addProvider_pchars hout
      · exact hout
  | .null, out, pk, hout => by unfold collectProviders; exact hout
  | .bool b, out, pk, hout => by unfold collectProviders; exact hout
  | .num q, out, pk, hout => by unfold collectProviders; exact hout
  | .arr es ps, out, pk, hout => by
      unfold collectProviders
      exact collectFromElems_pchars es out pk hout
  | .obj ms, out, pk, hout => by
      unfold collectProviders
      exact collectFromMembers_pchars ms out hout

theorem collectFromElems_pchars :
    ∀ (items : List Json) (out : List String) (pk : String),
      (∀ x ∈ out, ∀ c ∈ x.data, isProviderChar c = true) →
      ∀ x ∈ collectFromElems items out pk, ∀ c ∈ x.data, isProviderChar c = true
  | [], out, pk, hout => by unfold collectFromElems; exact hout
  | item :: rest, out, pk, hout => by
      unfold collectFromElems
      exact collectFromElems_pchars rest _ pk (collectProviders_pchars item out pk hout)

theorem collectFromMembers_pchars :
    ∀ (members : List (String × Json)) (out : List String),
      (∀ x ∈ out, ∀ c ∈ x.data, isProviderChar c = true) →
      ∀ x ∈ collectFromMembers members out, ∀ c ∈ x.data, isProviderChar c = true
  | [], out, hout => by unfold collectFromMembers; exact hout
  | (k, child) :: rest, out, hout => by
      unfold collectFromMembers
      exact collectFromMembers_pchars rest _
        (collectProviders_pchars child _ _ (addProvider_pchars hout))

end

/-- Every entry of the summary's provider list is made of provider-token
characters. -/
theorem providers_with_profiles_pchars (input : AuthStateInput) :
    ∀ x ∈ (summarizeAuthState input).providers_with_profiles,
      ∀ c ∈ x.data, isProviderChar c = true := by
  unfold summarizeAuthState
  simp only
  have hbase : ∀ x ∈ collectProviders (parseJson input.authProfilesText) [] "",
      ∀ c ∈ x.data, isProviderChar c = true :=
    collectProviders_pchars _ [] "" (by simp)
  cases hpp : providerFromModelRef (getPrimaryModelFromConfig (parseJson input.configText)) with
  | none => simpa [hpp] using hbase
  | some p =>
      simp only [hpp]
      split
      · split
        · simpa using hbase
        · intro x hx
          rcases List.mem_append.mp hx with h1 | h1
          · exact hbase x h1
          · simp at h1
            subst h1
            exact providerFromModelRef_chars hpp
      · simpa using hbase

theorem summary_primary_provider_pchars (input : AuthStateInput) :
    ∀ s, (summarizeAuthState input).primary_provider = some s →
      ∀ c ∈ s.data, isProviderChar c = true := by
  intro s hs
  unfold summarizeAuthState at hs
  simp only at hs
  exact providerFromModelRef_chars hs

theorem listIsFrontOf_mem {α : Type} [DecidableEq α] :
    ∀ {n h : List α}, listIsFrontOf n h = true → ∀ x ∈ n, x ∈ h
  | [], _, _, x, hx => by simp at hx
  | a :: as_, [], h, x, hx => by simp [listIsFrontOf] at h
  | a :: as_, b :: bs, h, x, hx => by
      unfold listIsFrontOf at h
      rw [Bool.and_eq_true, decide_eq_true_eq] at h
      rcases List.mem_cons.mp hx with rfl | hm
      · rw [h.1]; exact List.mem_cons_self _ _
      · exact List.mem_cons_of_mem _ (listIsFrontOf_mem h.2 x hm)

theorem listContainsSeq_mem {α : Type} [DecidableEq α] :
    ∀ {h : List α} {n : List α}, listContainsSeq n h = true → ∀ x ∈ n, x ∈ h := by
  intro h
  induction h with
  | nil =>
      intro n hc x hx
      unfold listContainsSeq at hc
      rw [List.isEmpty_iff] at hc
      subst hc
      simp at hx
  | cons b bs ih =>
      intro n hc x hx
      unfold listContainsSeq at hc
      rw [Bool.or_eq_true] at hc
      rcases hc with h1 | h1
      · exact listIsFrontOf_mem h1 x hx
      · exact List.mem_cons_of_mem _ (ih h1 x hx)

/-- A substring hit puts every character of the needle into the
haystack. -/
theorem strContains_mem {hay needle : String} (h : strContains hay needle = true) :
    ∀ x ∈ needle.data, x ∈ hay.data :=
  listContainsSeq_mem h

theorem all_base_of (s : String) (h : s.data.all isSummaryBaseChar = true) :
    ∀ x ∈ s.data, isSummaryBaseChar x = true := by
  rw [List.all_eq_true] at h
  exact h

/-- Every character of a serialized summary is a base-alphabet character
or comes from the config-derived primary model or the caller-chosen agent
id. -/
theorem serialize_chars (input : AuthStateInput) :
    ∀ x ∈ (serializeAuthStateSummary (summarizeAuthState input)).data,
      isSummaryBaseChar x = true ∨
      x ∈ (encOptStr (summarizeAuthState input).primary_model).data ∨
      x ∈ (encStr (summarizeAuthState input).agent_id).data := by
  intro x hx
  unfold serializeAuthStateSummary at hx
  simp only [String.data_append, List.mem_append] at hx
  rcases hx with ((((((((((((((h | h) | h) | h) | h) | h) | h) | h) | h) | h) | h) | h) | h) | h) | h)
  · exact Or.inl (all_base_of _ (by decide) x h)
  · exact Or.inr (Or.inl h)
  · exact Or.inl (all_base_of _ (by decide) x h)
  · exact Or.inl (encOptStr_chars_of_pchars (summary_primary_provider_pchars input) h)
  · exact Or.inl (all_base_of _ (by decide) x h)
  · exact Or.inr (Or.inr h)
  · exact Or.inl (all_base_of _ (by decide) x h)
  · exact Or.inl (encBool_chars h)
  · exact Or.inl (all_base_of _ (by decide) x h)
  · exact Or.inl (encStrList_chars (providers_with_profiles_pchars input) h)
  · exact Or.inl (all_base_of _ (by decide) x h)
  · exact Or.inl (encBool_chars h)
  · exact Or.inl (all_base_of _ (by decide) x h)
  · exact Or.inl (encBool_chars h)
  · exact Or.inl (all_base_of _ (by decide) x h)

/-- C6 (amended): the serialized auth-state summary never contains a
credential value that has at least one character outside the
provider-token/JSON-punctuation alphabet which also does not occur in the
serialized primary model or agent id. -/
theorem auth_summary_no_leak_amended (input : AuthStateInput) (secret : String)
    (hc : ∃ c ∈ secret.data, ¬ (isSummaryBaseChar c = true ∨
      c ∈ (encOptStr (summarizeAuthState input).primary_model).data ∨
      c ∈ (encStr (summarizeAuthState input).agent_id).data)) :
    strContains (serializeAuthStateSummary (summarizeAuthState input)) secret = false := by
  by_contra h
  rw [Bool.not_eq_false] at h
  obtain ⟨c, hcm, hcn⟩ := hc
  exact hcn (serialize_chars input c (strContains_mem h c hcm))

set_option maxRecDepth 10000 in
/-- C6 (counterexample to the unrestricted claim): a store whose only
credential value is the literal `anthropic` — the value stored under
`apiKey` — yields a serialized summary that does contain that credential
value. -/
theorem auth_summary_leak_counterexample :
    (((parseJson (some leakStoreText)).get "profiles").bind
      (fun p => (p.get "x").bind (fun c => c.get "apiKey")) = some (.str "anthropic")) ∧
    strContains
      (serializeAuthStateSummary (summarizeAuthState
        ⟨some cfgTextCodex, some leakStoreText, false, none⟩)) "anthropic" = true := by
  constructor
  · with_unfolding_all rfl
  · decide

set_option maxRecDepth 10000 in
/-- Witness for the amended C6 at a store whose credential `sk!secret`
contains `!`, a character outside the reachable alphabet. -/
theorem auth_summary_no_leak_witness :
    (∃ c ∈ ("sk!secret" : String).data, ¬ (isSummaryBaseChar c = true ∨
      c ∈ (encOptStr (summarizeAuthState
        ⟨some cfgTextCodex, some authTextSecretEx, false, none⟩).primary_model).data ∨
      c ∈ (encStr (summarizeAuthState
        ⟨some cfgTextCodex, some authTextSecretEx, false, none⟩).agent_id).data)) ∧
    strContains
      (serializeAuthStateSummary (summarizeAuthState
        ⟨some cfgTextCodex, some authTextSecretEx, false, none⟩)) "sk!secret" = false :=
  ⟨by decide,
    auth_summary_no_leak_amended ⟨some cfgTextCodex, some authTextSecretEx, false, none⟩
      "sk!secret" (by decide)⟩

theorem lookup_setAssoc_self (k : String) (v : Json) :
    ∀ l : List (String × Json), (setAssoc k v l).lookup k = some v := by
  intro l
  induction l with
  | nil => simp [setAssoc, List.lookup]
  | cons kv rest ih =>
      obtain ⟨k', v'⟩ := kv
      unfold setAssoc
      by_cases h : k' = k
      · simp [h, List.lookup]
      · simp only [if_neg h, List.lookup]
        rw [show (k == k') = false from beq_eq_false_iff_ne.mpr (fun he => h he.symm)]
        exact ih

theorem lookup_setAssoc_ne (k k' : String) (v : Json) (h : k' ≠ k) :
    ∀ l : List (String × Json), (setAssoc k v l).lookup k' = l.lookup k' := by
  intro l
  induction l with
  | nil =>
      simp only [setAssoc, List.lookup]
      rw [show (k' == k) = false from beq_eq_false_iff_ne.mpr h]
  | cons kv rest ih =>
      obtain ⟨k1, v1⟩ := kv
      unfold setAssoc
      by_cases hk : k1 = k
      · subst hk
        simp only [List.lookup]
        rw [show (k' == k1) = false from beq_eq_false_iff_ne.mpr h]
      · simp only [if_neg hk, List.lookup]
        by_cases hk2 : k' = k1
        · subst hk2
          simp
        · rw [show (k' == k1) = false from beq_eq_false_iff_ne.mpr hk2]
          simp only
          exact ih

theorem setAssoc_collapse (k : String) (v w : Json) :
    ∀ l : List (String × Json), setAssoc k v (setAssoc k w l) = setAssoc k v l := by
  intro l
  induction l with
  | nil => simp [setAssoc]
  | cons kv rest ih =>
      obtain ⟨k', v'⟩ := kv
      unfold setAssoc
      by_cases h : k' = k
      · simp [h, setAssoc]
      · simp only [if_neg h, setAssoc, if_neg h]
        rw [ih]

theorem setAssoc_self_of_lookup (k : String) (v : Json) :
    ∀ l : List (String × Json), l.lookup k = some v → setAssoc k v l = l := by
  intro l
  induction l with
  | nil => simp [List.lookup]
  | cons kv rest ih =>
      obtain ⟨k', v'⟩ := kv
      intro h
      unfold setAssoc
      by_cases hk : k' = k
      · subst hk
        simp only [List.lookup, beq_self_eq_true] at h
        simp at h
        simp [h]
      · rw [if_neg hk]
        simp only [List.lookup] at h
        rw [show (k == k') = false from beq_eq_false_iff_ne.mpr (fun he => hk he.symm)] at h
        simp only at h
        rw [ih h]

theorem Json.get_set_ne (j : Json) (k k' : String) (v : Json) (h : k' ≠ k) :
    (j.set k v).get k' = j.get k' := by
  cases j <;> simp [Json.set, Json.get] <;> exact lookup_setAssoc_ne k k' v h _

theorem Json.get_set_obj (ms : List (String × Json)) (k : String) (v : Json) :
    ((Json.obj ms).set k v).get k = some v := by
  simp [Json.set, Json.get]
  exact lookup_setAssoc_self k v ms

theorem Json.get_set_arr (es : List Json) (ps : List (String × Json)) (k : String) (v : Json) :
    ((Json.arr es ps).set k v).get k = some v := by
  simp [Json.set, Json.get]
  exact lookup_setAssoc_self k v ps

theorem Json.set_obj (ms : List (String × Json)) (k : String) (v : Json) :
    (Json.obj ms).set k v = .obj (setAssoc k v ms) := rfl

theorem Json.set_set (j : Json) (k : String) (v w : Json) :
    (j.set k w).set k v = j.set k v := by
  cases j <;> simp [Json.set] <;> exact setAssoc_collapse k v w _

theorem Json.set_self_of_get (j : Json) (k : String) (v : Json) (h : j.get k = some v) :
    j.set k v = j := by
  cases j with
  | obj ms =>
      simp [Json.get] at h
      simp [Json.set]
      exact setAssoc_self_of_lookup k v ms h
  | arr es ps =>
      simp [Json.get] at h
      simp [Json.set]
      exact setAssoc_self_of_lookup k v ps h
  | null => rfl
  | bool b => rfl
  | num q => rfl
  | str s => rfl

theorem Json.truthy_set (j : Json) (k : String) (v : Json) (h : j.truthy = true) :
    (j.set k v).truthy = true := by
  cases j <;> simp_all [Json.set, Json.truthy]

mutual

theorem stripProps_idem : ∀ j : Json, stripProps (stripProps j) = stripProps j
  | .null => rfl
  | .bool _ => rfl
  | .num _ => rfl
  | .str _ => rfl
  | .arr es _ => by
      simp only [stripProps]
      rw [stripPropsList_idem es]
  | .obj ms => by
      simp only [stripProps]
      rw [stripPropsMembers_idem ms]

theorem stripPropsList_idem : ∀ l : List Json, stripPropsList (stripPropsList l) = stripPropsList l
  | [] => rfl
  | j :: rest => by
      simp only [stripPropsList]
      rw [stripProps_idem j, stripPropsList_idem rest]

theorem stripPropsMembers_idem :
    ∀ l : List (String × Json), stripPropsMembers (stripPropsMembers l) = stripPropsMembers l
  | [] => rfl
  | (k, v) :: rest => by
      simp only [stripPropsMembers]
      rw [stripProps_idem v, stripPropsMembers_idem rest]

end

theorem lookup_stripPropsMembers (k : String) :
    ∀ l : List (String × Json),
      (stripPropsMembers l).lookup k = (l.lookup k).map stripProps := by
  intro l
  induction l with
  | nil => simp [stripPropsMembers, List.lookup]
  | cons kv rest ih =>
      obtain ⟨k1, v1⟩ := kv
      unfold stripPropsMembers
      simp only [List.lookup]
      by_cases h : k == k1
      · rw [h]
        simp
      · rw [show (k == k1) = false from by simpa using h]
        simp only
        exact ih

theorem stripProps_get_obj (ms : List (String × Json)) (k : String) :
    (stripProps (.obj ms)).get k = ((Json.obj ms).get k).map stripProps := by
  unfold stripProps
  simp [Json.get]
  exact lookup_stripPropsMembers k ms

theorem stripProps_truthy (j : Json) : (stripProps j).truthy = j.truthy := by
  cases j <;> rfl

theorem Json.container_of_get_some {j : Json} {k : String} {v : Json}
    (h : j.get k = some v) :
    (∃ ms, j = .obj ms) ∨ ∃ es ps, j = .arr es ps := by
  cases j <;> simp [Json.get] at h <;> simp

theorem Json.get_set_self_of_container {j : Json} {k0 k : String} {w v : Json}
    (h : j.get k0 = some w) : (j.set k v).get k = some v := by
  rcases Json.container_of_get_some h with ⟨ms, rfl⟩ | ⟨es, ps, rfl⟩
  · exact Json.get_set_obj ms k v
  · exact Json.get_set_arr es ps k v

theorem Json.ne_null_of_get_some {j : Json} {k : String} {v : Json}
    (h : j.get k = some v) : j ≠ .null := by
  rcases Json.container_of_get_some h with ⟨ms, rfl⟩ | ⟨es, ps, rfl⟩ <;> simp

theorem orAssignAt1_cases {root : Json} {k : String} {d r : Json}
    (h : orAssignAt1 root k d = some r) : r = root ∨ r = root.set k d := by
  unfold orAssignAt1 readProp at h
  split at h
  · simp at h
  · simp only [Option.bind_eq_bind, Option.some_bind] at h
    split at h
    · split at h <;> simp at h <;> simp [h]
    · simp at h
      simp [h]

theorem orAssignAt2_cases {root : Json} {k1 k2 : String} {d r : Json}
    (h : orAssignAt2 root k1 k2 d = some r) : r = root ∨ ∃ v, r = root.set k1 v := by
  unfold orAssignAt2 readProp at h
  split at h
  · simp at h
  · simp only [Option.bind_eq_bind, Option.some_bind] at h
    split at h
    · simp at h
    · simp at h
    · split at h
      · split at h <;> simp at h
        · simp [h]
        · exact Or.inr ⟨_, h.symm⟩
      · simp at h
        exact Or.inr ⟨_, h.symm⟩

theorem orAssignAt3_cases {root : Json} {k1 k2 k3 : String} {d r : Json}
    (h : orAssignAt3 root k1 k2 k3 d = some r) : r = root ∨ ∃ v, r = root.set k1 v := by
  unfold orAssignAt3 readProp at h
  split at h
  · simp at h
  · simp only [Option.bind_eq_bind, Option.some_bind] at h
    split at h
    · simp at h
    · simp at h
    · split at h
      · simp at h
      · simp at h
      · split at h
        · split at h <;> simp at h
          · simp [h]
          · exact Or.inr ⟨_, h.symm⟩
        · simp at h
          exact Or.inr ⟨_, h.symm⟩

theorem setAt2_cases {root : Json} {k1 k2 : String} {v r : Json}
    (h : setAt2 root k1 k2 v = some r) : ∃ w, r = root.set k1 w := by
  unfold setAt2 readProp at h
  split at h
  · simp at h
  · simp only [Option.bind_eq_bind, Option.some_bind] at h
    split at h
    · simp at h
    · simp at h
    · simp at h
      exact ⟨_, h.symm⟩

theorem setAt3_cases {root : Json} {k1 k2 k3 : String} {v r : Json}
    (h : setAt3 root k1 k2 k3 v = some r) : ∃ w, r = root.set k1 w := by
  unfold setAt3 readProp at h
  split at h
  · simp at h
  · simp only [Option.bind_eq_bind, Option.some_bind] at h
    split at h
    · simp at h
    · simp at h
    · split at h
      · simp at h
      · simp at h
      · simp at h
        exact ⟨_, h.symm⟩

theorem setAt4_cases {root : Json} {k1 k2 k3 k4 : String} {v r : Json}
    (h : setAt4 root k1 k2 k3 k4 v = some r) : ∃ w, r = root.set k1 w := by
  unfold setAt4 readProp at h
  split at h
  · simp at h
  · simp only [Option.bind_eq_bind, Option.some_bind] at h
    split at h
    · simp at h
    · simp at h
    · split at h
      · simp at h
      · simp at h
      · split at h
        · simp at h
        · simp at h
        · simp at h
          exact ⟨_, h.symm⟩

theorem readProp_eq {root : Json} (h : root ≠ .null) (k : String) :
    readProp root k = some (root.get k) := by
  cases root <;> first | exact absurd rfl h | rfl

theorem orAssignAt1_of_truthy {root : Json} {k : String} {v : Json} (hg : root.get k = some v)
    (hv : v.truthy = true) (d : Json) : orAssignAt1 root k d = some root := by
  have hnn := Json.ne_null_of_get_some hg
  unfold orAssignAt1
  rw [readProp_eq hnn, hg]
  simp [hv]

theorem setAt2_compute {root bv : Json} {k1 k2 : String} (hg : root.get k1 = some bv)
    (hnn : bv ≠ .null) (v : Json) :
    setAt2 root k1 k2 v = some (root.set k1 (bv.set k2 v)) := by
  have hr := Json.ne_null_of_get_some hg
  unfold setAt2
  rw [readProp_eq hr, hg]
  cases bv <;> first | exact absurd rfl hnn | rfl

theorem setAt3_compute {root bv1 bv2 : Json} {k1 k2 k3 : String}
    (hg1 : root.get k1 = some bv1) (hnn1 : bv1 ≠ .null)
    (hg2 : bv1.get k2 = some bv2) (hnn2 : bv2 ≠ .null) (v : Json) :
    setAt3 root k1 k2 k3 v = some (root.set k1 (bv1.set k2 (bv2.set k3 v))) := by
  have hr := Json.ne_null_of_get_some hg1
  unfold setAt3
  rw [readProp_eq hr, hg1]
  simp only [Option.bind_eq_bind, Option.some_bind]
  cases bv1 <;> first
    | exact absurd rfl hnn1
    | (rw [show Json.get _ k2 = some bv2 from hg2]
       cases bv2 <;> first
         | exact absurd rfl hnn2
         | rfl)

theorem stageEnsureTop_channels {c d v : Json} (hch : c.get "channels" = some v)
    (hv : v.truthy = true) (h : stageEnsureTop c = some d) :
    d.get "channels" = some v ∧
      (∀ k, k ≠ "gateway" → k ≠ "channels" → k ≠ "plugins" → d.get k = c.get k) := by
  unfold stageEnsureTop at h
  simp only [Option.bind_eq_bind, Option.bind_eq_some] at h
  obtain ⟨c1, h1, c2, h2, h3⟩ := h
  have hc1ch : c1.get "channels" = some v := by
    rcases orAssignAt1_cases h1 with rfl | rfl
    · exact hch
    · rw [Json.get_set_ne _ _ _ _ (by decide)]
      exact hch
  have hc2 : c2 = c1 := by
    rw [orAssignAt1_of_truthy hc1ch hv] at h2
    injection h2 with h2
    exact h2.symm
  rw [hc2] at h3
  constructor
  · rcases orAssignAt1_cases h3 with rfl | rfl
    · exact hc1ch
    · rw [Json.get_set_ne _ _ _ _ (by decide)]
      exact hc1ch
  · intro k hk1 hk2 hk3
    have e1 : c1.get k = c.get k := by
      rcases orAssignAt1_cases h1 with rfl | rfl
      · rfl
      · exact Json.get_set_ne _ _ _ _ hk1
    have e3 : d.get k = c1.get k := by
      rcases orAssignAt1_cases h3 with rfl | rfl
      · rfl
      · exact Json.get_set_ne _ _ _ _ hk3
    rw [e3, e1]

theorem bind_some_inv {α β : Type} {x : Option α} {f : α → Option β} {b : β}
    (h : x.bind f = some b) : ∃ a, x = some a ∧ f a = some b := by
  cases x with
  | none => simp at h
  | some a => exact ⟨a, rfl, h⟩

theorem stagePluginsSetup_frame {c d : Json} (h : stagePluginsSetup c = some d) :
    ∀ k, k ≠ "plugins" → d.get k = c.get k := by
  intro k hk
  unfold stagePluginsSetup at h
  obtain ⟨c4, h4, h⟩ := bind_some_inv h
  obtain ⟨c5, h5, h⟩ := bind_some_inv h
  obtain ⟨c6, h6, h⟩ := bind_some_inv h
  obtain ⟨pv, hpv, h⟩ := bind_some_inv h
  obtain ⟨inc, hinc, h⟩ := bind_some_inv h
  simp only [] at h
  have e4 : c4.get k = c.get k := by
    rcases orAssignAt2_cases h4 with rfl | ⟨v, rfl⟩
    · rfl
    · exact Json.get_set_ne _ _ _ _ hk
  have e5 : c5.get k = c4.get k := by
    rcases orAssignAt2_cases h5 with rfl | ⟨v, rfl⟩
    · rfl
    · exact Json.get_set_ne _ _ _ _ hk
  have e6 : c6.get k = c5.get k := by
    rcases orAssignAt3_cases h6 with rfl | ⟨v, rfl⟩
    · rfl
    · exact Json.get_set_ne _ _ _ _ hk
  have tail : ∀ c7 : Json,
      ((orAssignAt3 c7 "plugins" "entries" "trace-model" (Json.obj [])).bind fun c8 =>
        setAt4 c8 "plugins" "entries" "trace-model" "enabled" (Json.bool true)) = some d →
      d.get k = c7.get k := by
    intro c7 htail
    obtain ⟨c8, h8, h9⟩ := bind_some_inv htail
    have e8 : c8.get k = c7.get k := by
      rcases orAssignAt3_cases h8 with rfl | ⟨v, rfl⟩
      · rfl
      · exact Json.get_set_ne _ _ _ _ hk
    obtain ⟨w, rfl⟩ := setAt4_cases h9
    rw [Json.get_set_ne _ _ _ _ hk, e8]
  split at h
  · obtain ⟨c7, hc7, h⟩ := bind_some_inv h
    have hcc : c6 = c7 := Option.some.inj hc7
    rw [tail c7 h, ← hcc, e6, e5, e4]
  · split at h
    · obtain ⟨c7, hc7, h⟩ := bind_some_inv h
      obtain ⟨w, rfl⟩ := setAt3_cases hc7
      rw [tail _ h, Json.get_set_ne _ _ _ _ hk, e6, e5, e4]
    · exact Option.noConfusion h

theorem stageGateway_frame {env : PatchEnv} {c d : Json} (h : stageGateway env c = some d) :
    ∀ k, k ≠ "gateway" → d.get k = c.get k := by
  intro k hk
  unfold stageGateway at h
  obtain ⟨c10, h10, h⟩ := bind_some_inv h
  obtain ⟨c11, h11, h⟩ := bind_some_inv h
  obtain ⟨c12, h12, h⟩ := bind_some_inv h
  simp only [] at h
  have e10 : c10.get k = c.get k := by
    obtain ⟨w, rfl⟩ := setAt2_cases h10
    exact Json.get_set_ne _ _ _ _ hk
  have e11 : c11.get k = c10.get k := by
    obtain ⟨w, rfl⟩ := setAt2_cases h11
    exact Json.get_set_ne _ _ _ _ hk
  have e12 : c12.get k = c11.get k := by
    obtain ⟨w, rfl⟩ := setAt2_cases h12
    exact Json.get_set_ne _ _ _ _ hk
  have tail : ∀ c13 : Json,
      (if env.openclaw_dev_mode = some "true" then
        (orAssignAt2 c13 "gateway" "controlUi" (Json.obj [])).bind fun cb =>
          setAt3 cb "gateway" "controlUi" "allowInsecureAuth" (Json.bool true)
      else pure c13) = some d →
      d.get k = c13.get k := by
    intro c13 htail
    split at htail
    · obtain ⟨cb, hcb, hcc⟩ := bind_some_inv htail
      have eb : cb.get k = c13.get k := by
        rcases orAssignAt2_cases hcb with rfl | ⟨v, rfl⟩
        · rfl
        · exact Json.get_set_ne _ _ _ _ hk
      obtain ⟨w, rfl⟩ := setAt3_cases hcc
      rw [Json.get_set_ne _ _ _ _ hk, eb]
    · have := Option.some.inj htail
      rw [← this]
  split at h
  · obtain ⟨ca, hca, h⟩ := bind_some_inv h
    obtain ⟨cb, hcb, h⟩ := bind_some_inv h
    have ea : ca.get k = c12.get k := by
      rcases orAssignAt2_cases hca with rfl | ⟨v, rfl⟩
      · rfl
      · exact Json.get_set_ne _ _ _ _ hk
    have eb : cb.get k = ca.get k := by
      obtain ⟨w, rfl⟩ := setAt3_cases hcb
      exact Json.get_set_ne _ _ _ _ hk
    rw [tail cb h, eb, ea, e12, e11, e10]
  · obtain ⟨c13, hc13, h⟩ := bind_some_inv h
    have hcc : c12 = c13 := Option.some.inj hc13
    rw [tail c13 h, ← hcc, e12, e11, e10]

theorem stageCfModel_frame {env : PatchEnv} {c d : Json} (h : stageCfModel env c = some d) :
    ∀ k, k ≠ "models" → k ≠ "agents" → d.get k = c.get k := by
  intro k hk1 hk2
  unfold stageCfModel at h
  by_cases h1 : optStrTruthy env.cf_ai_gateway_model = true
  case neg =>
    rw [if_neg h1] at h
    injection h with h
    rw [← h]
  rw [if_pos h1] at h
  simp only [] at h
  cases hurl : cfBaseUrl env (cfGwProvider (env.cf_ai_gateway_model.getD "")) with
  | none =>
      rw [hurl] at h
      simp only [] at h
      injection h with h
      rw [← h]
  | some url =>
      rw [hurl] at h
      simp only [] at h
      by_cases h2 : optStrTruthy env.cloudflare_ai_gateway_api_key = true
      case neg =>
        rw [if_neg h2] at h
        injection h with h
        rw [← h]
      rw [if_pos h2] at h
      obtain ⟨ca, hca, h⟩ := bind_some_inv h
      obtain ⟨cb, hcb, h⟩ := bind_some_inv h
      obtain ⟨cc, hcc, h⟩ := bind_some_inv h
      obtain ⟨cd, hcd, h⟩ := bind_some_inv h
      obtain ⟨ce, hce, hcf⟩ := bind_some_inv h
      have ea : ca.get k = c.get k := by
        rcases orAssignAt1_cases hca with rfl | rfl
        · rfl
        · exact Json.get_set_ne _ _ _ _ hk1
      have eb : cb.get k = ca.get k := by
        rcases orAssignAt2_cases hcb with rfl | ⟨v, rfl⟩
        · rfl
        · exact Json.get_set_ne _ _ _ _ hk1
      have ec : cc.get k = cb.get k := by
        obtain ⟨w, rfl⟩ := setAt3_cases hcc
        exact Json.get_set_ne _ _ _ _ hk1
      have ed : cd.get k = cc.get k := by
        rcases orAssignAt1_cases hcd with rfl | rfl
        · rfl
        · exact Json.get_set_ne _ _ _ _ hk2
      have ee : ce.get k = cd.get k := by
        rcases orAssignAt2_cases hce with rfl | ⟨v, rfl⟩
        · rfl
        · exact Json.get_set_ne _ _ _ _ hk2
      have ef : d.get k = ce.get k := by
        obtain ⟨w, rfl⟩ := setAt3_cases hcf
        exact Json.get_set_ne _ _ _ _ hk2
      rw [ef, ee, ed, ec, eb, ea]

theorem objStep {c r : Json} {k : String} (hc : ∃ ds, c = Json.obj ds)
    (h : r = c ∨ ∃ v, r = c.set k v) : ∃ ds, r = Json.obj ds := by
  obtain ⟨ds, rfl⟩ := hc
  rcases h with rfl | ⟨v, rfl⟩
  · exact ⟨ds, rfl⟩
  · exact ⟨setAssoc k v ds, rfl⟩

theorem stageEnsureTop_obj {c d : Json} (hc : ∃ ds, c = Json.obj ds)
    (h : stageEnsureTop c = some d) : ∃ ds, d = Json.obj ds := by
  unfold stageEnsureTop at h
  obtain ⟨c1, h1, h⟩ := bind_some_inv h
  obtain ⟨c2, h2, h3⟩ := bind_some_inv h
  have o1 := objStep hc ((orAssignAt1_cases h1).imp id fun hh => ⟨_, hh⟩)
  have o2 := objStep o1 ((orAssignAt1_cases h2).imp id fun hh => ⟨_, hh⟩)
  exact objStep o2 ((orAssignAt1_cases h3).imp id fun hh => ⟨_, hh⟩)

theorem stagePluginsSetup_obj {c d : Json} (hc : ∃ ds, c = Json.obj ds)
    (h : stagePluginsSetup c = some d) : ∃ ds, d = Json.obj ds := by
  unfold stagePluginsSetup at h
  obtain ⟨c4, h4, h⟩ := bind_some_inv h
  obtain ⟨c5, h5, h⟩ := bind_some_inv h
  obtain ⟨c6, h6, h⟩ := bind_some_inv h
  obtain ⟨pv, hpv, h⟩ := bind_some_inv h
  obtain ⟨inc, hinc, h⟩ := bind_some_inv h
  simp only [] at h
  have o4 := objStep hc (orAssignAt2_cases h4)
  have o5 := objStep o4 (orAssignAt2_cases h5)
  have o6 := objStep o5 (orAssignAt3_cases h6)
  have tail : ∀ c7 : Json, (∃ ds, c7 = Json.obj ds) →
      ((orAssignAt3 c7 "plugins" "entries" "trace-model" (Json.obj [])).bind fun c8 =>
        setAt4 c8 "plugins" "entries" "trace-model" "enabled" (Json.bool true)) = some d →
      ∃ ds, d = Json.obj ds := by
    intro c7 o7 htail
    obtain ⟨c8, h8, h9⟩ := bind_some_inv htail
    have o8 := objStep o7 (orAssignAt3_cases h8)
    exact objStep o8 (Or.inr (setAt4_cases h9))
  split at h
  · obtain ⟨c7, hc7, h⟩ := bind_some_inv h
    exact tail c7 (Option.some.inj hc7 ▸ o6) h
  · split at h
    · obtain ⟨c7, hc7, h⟩ := bind_some_inv h
      exact tail c7 (objStep o6 (Or.inr (setAt3_cases hc7))) h
    · exact Option.noConfusion h

theorem stageGateway_obj {env : PatchEnv} {c d : Json} (hc : ∃ ds, c = Json.obj ds)
    (h : stageGateway env c = some d) : ∃ ds, d = Json.obj ds := by
  unfold stageGateway at h
  obtain ⟨c10, h10, h⟩ := bind_some_inv h
  obtain ⟨c11, h11, h⟩ := bind_some_inv h
  obtain ⟨c12, h12, h⟩ := bind_some_inv h
  simp only [] at h
  have o10 := objStep hc (Or.inr (setAt2_cases h10))
  have o11 := objStep o10 (Or.inr (setAt2_cases h11))
  have o12 := objStep o11 (Or.inr (setAt2_cases h12))
  have tail : ∀ c13 : Json, (∃ ds, c13 = Json.obj ds) →
      (if env.openclaw_dev_mode = some "true" then
        (orAssignAt2 c13 "gateway" "controlUi" (Json.obj [])).bind fun cb =>
          setAt3 cb "gateway" "controlUi" "allowInsecureAuth" (Json.bool true)
      else pure c13) = some d → ∃ ds, d = Json.obj ds := by
    intro c13 o13 htail
    split at htail
    · obtain ⟨cb, hcb, hcc⟩ := bind_some_inv htail
      have ob := objStep o13 (orAssignAt2_cases hcb)
      exact objStep ob (Or.inr (setAt3_cases hcc))
    · exact Option.some.inj htail ▸ o13
  split at h
  · obtain ⟨ca, hca, h⟩ := bind_some_inv h
    obtain ⟨cb, hcb, h⟩ := bind_some_inv h
    have oa := objStep o12 (orAssignAt2_cases hca)
    have ob := objStep oa (Or.inr (setAt3_cases hcb))
    exact tail cb ob h
  · obtain ⟨c13, hc13, h⟩ := bind_some_inv h
    exact tail c13 (Option.some.inj hc13 ▸ o12) h

theorem stageCfModel_obj {env : PatchEnv} {c d : Json} (hc : ∃ ds, c = Json.obj ds)
    (h : stageCfModel env c = some d) : ∃ ds, d = Json.obj ds := by
  unfold stageCfModel at h
  by_cases h1 : optStrTruthy env.cf_ai_gateway_model = true
  case neg =>
    rw [if_neg h1] at h
    injection h with h
    exact h ▸ hc
  rw [if_pos h1] at h
  simp only [] at h
  cases hurl : cfBaseUrl env (cfGwProvider (env.cf_ai_gateway_model.getD "")) with
  | none =>
      rw [hurl] at h
      simp only [] at h
      injection h with h
      exact h ▸ hc
  | some url =>
      rw [hurl] at h
      simp only [] at h
      by_cases h2 : optStrTruthy env.cloudflare_ai_gateway_api_key = true
      case neg =>
        rw [if_neg h2] at h
        injection h with h
        exact h ▸ hc
      rw [if_pos h2] at h
      obtain ⟨ca, hca, h⟩ := bind_some_inv h
      obtain ⟨cb, hcb, h⟩ := bind_some_inv h
      obtain ⟨cc, hcc, h⟩ := bind_some_inv h
      obtain ⟨cd, hcd, h⟩ := bind_some_inv h
      obtain ⟨ce, hce, hcf⟩ := bind_some_inv h
      have oa := objStep hc ((orAssignAt1_cases hca).imp id fun hh => ⟨_, hh⟩)
      have ob := objStep oa (orAssignAt2_cases hcb)
      have oc := objStep ob (Or.inr (setAt3_cases hcc))
      have od := objStep oc ((orAssignAt1_cases hcd).imp id fun hh => ⟨_, hh⟩)
      have oe := objStep od (orAssignAt2_cases hce)
      exact objStep oe (Or.inr (setAt3_cases hcf))

theorem stageTelegram_skip {env : PatchEnv} (c : Json)
    (htok : optStrTruthy env.telegram_bot_token = false) :
    stageTelegram env c = some c := by
  simp [stageTelegram, htok]

theorem stageDiscord_skip {env : PatchEnv} (c : Json)
    (htok : optStrTruthy env.discord_bot_token = false) :
    stageDiscord env c = some c := by
  simp [stageDiscord, htok]

theorem stageSlack_skip {env : PatchEnv} (c : Json)
    (hcond : ¬(optStrTruthy env.slack_bot_token = true ∧
      optStrTruthy env.slack_app_token = true)) :
    stageSlack env c = some c := by
  unfold stageSlack
  rw [if_neg hcond]
  rfl

theorem stageTelegram_allow_step {env : PatchEnv} {c : Json} {ms : List (String × Json)}
    (hch : c.get "channels" = some (.obj ms)) (v : Json) :
    setAt3 (c.set "channels" (.obj (setAssoc "telegram" (telegramBaseObj env) ms)))
        "channels" "telegram" "allowFrom" v
      = some (c.set "channels"
          (.obj (setAssoc "telegram" ((telegramBaseObj env).set "allowFrom" v) ms))) := by
  have hg1 : (c.set "channels"
      (Json.obj (setAssoc "telegram" (telegramBaseObj env) ms))).get "channels"
      = some (Json.obj (setAssoc "telegram" (telegramBaseObj env) ms)) :=
    Json.get_set_self_of_container hch
  have hg2 : (Json.obj (setAssoc "telegram" (telegramBaseObj env) ms)).get "telegram"
      = some (telegramBaseObj env) :=
    lookup_setAssoc_self "telegram" (telegramBaseObj env) ms
  rw [setAt3_compute hg1 (by simp) hg2 (by simp [telegramBaseObj]) v, Json.set_set]
  rw [show (Json.obj (setAssoc "telegram" (telegramBaseObj env) ms)).set "telegram"
        ((telegramBaseObj env).set "allowFrom" v)
      = Json.obj (setAssoc "telegram" ((telegramBaseObj env).set "allowFrom" v) ms) from by
    rw [Json.set_obj, setAssoc_collapse]]

theorem stageTelegram_channels {env : PatchEnv} {c : Json} {ms : List (String × Json)}
    (hch : c.get "channels" = some (.obj ms))
    (htok : optStrTruthy env.telegram_bot_token = true) :
    stageTelegram env c
      = some (c.set "channels" (.obj (setAssoc "telegram" (telegramFinalObj env) ms))) := by
  unfold stageTelegram
  rw [if_pos htok, setAt2_compute hch (by simp) (telegramBaseObj env)]
  simp only [Option.bind_eq_bind, Option.some_bind]
  rw [Json.set_obj ms "telegram" (telegramBaseObj env)]
  unfold telegramFinalObj
  by_cases haf : optStrTruthy env.telegram_dm_allow_from = true
  · rw [if_pos haf, if_pos haf]
    exact stageTelegram_allow_step hch _
  · rw [if_neg haf, if_neg haf]
    by_cases hop : telegramDmPolicy env = "open"
    · rw [if_pos hop, if_pos hop]
      exact stageTelegram_allow_step hch _
    · rw [if_neg hop, if_neg hop]
      rfl

theorem stageDiscord_channels {env : PatchEnv} {c : Json} {ms : List (String × Json)}
    (hch : c.get "channels" = some (.obj ms))
    (htok : optStrTruthy env.discord_bot_token = true) :
    stageDiscord env c
      = some (c.set "channels" (.obj (setAssoc "discord" (discordObj env) ms))) := by
  unfold stageDiscord
  rw [if_pos htok, setAt2_compute hch (by simp) (discordObj env)]
  rfl

theorem stageSlack_channels {env : PatchEnv} {c : Json} {ms : List (String × Json)}
    (hch : c.get "channels" = some (.obj ms))
    (hbot : optStrTruthy env.slack_bot_token = true)
    (happ : optStrTruthy env.slack_app_token = true) :
    stageSlack env c
      = some (c.set "channels" (.obj (setAssoc "slack" (slackObj env) ms))) := by
  unfold stageSlack
  rw [if_pos ⟨hbot, happ⟩, setAt2_compute hch (by simp) (slackObj env)]
  rfl

theorem stripPropsList_map_str : ∀ xs : List String,
    stripPropsList (xs.map Json.str) = xs.map Json.str
  | [] => rfl
  | x :: rest => by
      simp only [List.map, stripPropsList, stripProps]
      rw [stripPropsList_map_str rest]

theorem stripProps_telegramFinalObj (env : PatchEnv) :
    stripProps (telegramFinalObj env) = telegramFinalObj env := by
  unfold telegramFinalObj
  split
  · rw [show (telegramBaseObj env).set "allowFrom"
        (Json.arr ((jsSplitChar (env.telegram_dm_allow_from.getD "") ',').map Json.str) [])
      = Json.obj [("botToken", .str (env.telegram_bot_token.getD "")),
                  ("enabled", .bool true),
                  ("dmPolicy", .str (telegramDmPolicy env)),
                  ("allowFrom",
                   .arr ((jsSplitChar (env.telegram_dm_allow_from.getD "") ',').map Json.str) [])]
      from by simp [telegramBaseObj, Json.set, setAssoc]]
    simp only [stripProps, stripPropsMembers]
    rw [stripPropsList_map_str]
  · split
    · rw [show (telegramBaseObj env).set "allowFrom" (Json.arr [Json.str "*"] [])
        = Json.obj [("botToken", .str (env.telegram_bot_token.getD "")),
                    ("enabled", .bool true),
                    ("dmPolicy", .str (telegramDmPolicy env)),
                    ("allowFrom", .arr [.str "*"] [])]
        from by simp [telegramBaseObj, Json.set, setAssoc]]
      simp only [stripProps, stripPropsMembers, stripPropsList]
    · simp only [telegramBaseObj, stripProps, stripPropsMembers]

theorem stripProps_discordObj (env : PatchEnv) :
    stripProps (discordObj env) = discordObj env := by
  unfold discordObj
  simp only []
  split
  · split <;> simp only [stripProps, stripPropsMembers, stripPropsList]
  · simp [stripProps, stripPropsMembers, stripPropsList]

theorem stripProps_slackObj (env : PatchEnv) :
    stripProps (slackObj env) = slackObj env := by
  simp only [slackObj, stripProps, stripPropsMembers]

/-- C4: with a Telegram bot token present, `channels.telegram` of the
patched document is exactly the fresh object the patcher builds — whatever
subtree (stale keys included) was there before is discarded, and the new
object's keys are exactly `botToken`, `enabled`, `dmPolicy`, plus
`allowFrom` when an allow-list is given or the DM policy is `open`;
`channels.discord` and `channels.slack` are likewise replaced wholesale
when their credentials are present, and an `open` Telegram policy without
an explicit allow-list yields `allowFrom = ["*"]`. -/
theorem channels_replaced_wholesale (env : PatchEnv) (ds : List (String × Json))
    (r : Json) (ms : List (String × Json))
    (hch : (Json.obj ds).get "channels" = some (.obj ms))
    (hpatch : patchConfig env (.obj ds) = some r) :
    (optStrTruthy env.telegram_bot_token = true →
      (r.get "channels").bind (fun ch => ch.get "telegram")
        = some (telegramFinalObj env)) ∧
    (optStrTruthy env.discord_bot_token = true →
      (r.get "channels").bind (fun ch => ch.get "discord") = some (discordObj env)) ∧
    (optStrTruthy env.slack_bot_token = true ∧ optStrTruthy env.slack_app_token = true →
      (r.get "channels").bind (fun ch => ch.get "slack") = some (slackObj env)) ∧
    (∃ tms, telegramFinalObj env = .obj tms ∧
      tms.map Prod.fst = ["botToken", "enabled", "dmPolicy"] ++
        (if optStrTruthy env.telegram_dm_allow_from = true ∨ telegramDmPolicy env = "open"
         then ["allowFrom"] else [])) ∧
    (telegramDmPolicy env = "open" → optStrTruthy env.telegram_dm_allow_from = false →
      (telegramFinalObj env).get "allowFrom" = some (.arr [.str "*"] [])) := by
  unfold patchConfig at hpatch
  obtain ⟨c3, h3, hpatch⟩ := bind_some_inv hpatch
  obtain ⟨c9, h9, hpatch⟩ := bind_some_inv hpatch
  obtain ⟨c14, h14, hpatch⟩ := bind_some_inv hpatch
  obtain ⟨c15, h15, hpatch⟩ := bind_some_inv hpatch
  obtain ⟨c16, h16, hpatch⟩ := bind_some_inv hpatch
  obtain ⟨c17, h17, hpatch⟩ := bind_some_inv hpatch
  obtain ⟨c18, h18, hr⟩ := bind_some_inv hpatch
  have hrr : r = stripProps c18 := (Option.some.inj hr).symm
  have hch3 : c3.get "channels" = some (.obj ms) := (stageEnsureTop_channels hch rfl h3).1
  have hch9 : c9.get "channels" = some (.obj ms) := by
    rw [stagePluginsSetup_frame h9 "channels" (by decide)]
    exact hch3
  have hch14 : c14.get "channels" = some (.obj ms) := by
    rw [stageGateway_frame h14 "channels" (by decide)]
    exact hch9
  have hch15 : c15.get "channels" = some (.obj ms) := by
    rw [stageCfModel_frame h15 "channels" (by decide) (by decide)]
    exact hch14
  have o3 := stageEnsureTop_obj ⟨ds, rfl⟩ h3
  have o9 := stagePluginsSetup_obj o3 h9
  have o14 := stageGateway_obj o9 h14
  have o15 := stageCfModel_obj o14 h15
  have step16 : ∃ (ds16 ms16 : List (String × Json)),
      c16 = Json.obj ds16 ∧ c16.get "channels" = some (.obj ms16) ∧
      (optStrTruthy env.telegram_bot_token = true →
        ms16.lookup "telegram" = some (telegramFinalObj env)) := by
    obtain ⟨ds15, rfl⟩ := o15
    by_cases htg : optStrTruthy env.telegram_bot_token = true
    · rw [stageTelegram_channels hch15 htg] at h16
      have hc16 : c16 = (Json.obj ds15).set "channels"
          (.obj (setAssoc "telegram" (telegramFinalObj env) ms)) :=
        (Option.some.inj h16).symm
      refine ⟨setAssoc "channels" (.obj (setAssoc "telegram" (telegramFinalObj env) ms)) ds15,
        setAssoc "telegram" (telegramFinalObj env) ms, ?_, ?_, ?_⟩
      · rw [hc16]
        rfl
      · rw [hc16]
        exact Json.get_set_obj ds15 "channels" _
      · intro _
        exact lookup_setAssoc_self "telegram" (telegramFinalObj env) ms
    · have htg' : optStrTruthy env.telegram_bot_token = false := by
        revert htg
        cases optStrTruthy env.telegram_bot_token <;> simp
      rw [stageTelegram_skip _ htg'] at h16
      have hc16 : c16 = Json.obj ds15 := (Option.some.inj h16).symm
      exact ⟨ds15, ms, hc16, hc16 ▸ hch15, fun hcontr => absurd hcontr htg⟩
  obtain ⟨ds16, ms16, hc16obj, hch16, htgl⟩ := step16
  have step17 : ∃ (ds17 ms17 : List (String × Json)),
      c17 = Json.obj ds17 ∧ c17.get "channels" = some (.obj ms17) ∧
      (optStrTruthy env.telegram_bot_token = true →
        ms17.lookup "telegram" = some (telegramFinalObj env)) ∧
      (optStrTruthy env.discord_bot_token = true →
        ms17.lookup "discord" = some (discordObj env)) := by
    subst hc16obj
    by_cases hdc : optStrTruthy env.discord_bot_token = true
    · rw [stageDiscord_channels hch16 hdc] at h17
      have hc17 : c17 = (Json.obj ds16).set "channels"
          (.obj (setAssoc "discord" (discordObj env) ms16)) :=
        (Option.some.inj h17).symm
      refine ⟨setAssoc "channels" (.obj (setAssoc "discord" (discordObj env) ms16)) ds16,
        setAssoc "discord" (discordObj env) ms16, ?_, ?_, ?_, ?_⟩
      · rw [hc17]
        rfl
      · rw [hc17]
        exact Json.get_set_obj ds16 "channels" _
      · intro htg
        rw [lookup_setAssoc_ne "discord" "telegram" _ (by decide)]
        exact htgl htg
      · intro _
        exact lookup_setAssoc_self "discord" (discordObj env) ms16
    · have hdc' : optStrTruthy env.discord_bot_token = false := by
        revert hdc
        cases optStrTruthy env.discord_bot_token <;> simp
      rw [stageDiscord_skip _ hdc'] at h17
      have hc17 : c17 = Json.obj ds16 := (Option.some.inj h17).symm
      exact ⟨ds16, ms16, hc17, hc17 ▸ hch16, htgl, fun hcontr => absurd hcontr hdc⟩
  obtain ⟨ds17, ms17, hc17obj, hch17, htgl2, hdcl2⟩ := step17
  have step18 : ∃ (ds18 ms18 : List (String × Json)),
      c18 = Json.obj ds18 ∧ c18.get "channels" = some (.obj ms18) ∧
      (optStrTruthy env.telegram_bot_token = true →
        ms18.lookup "telegram" = some (telegramFinalObj env)) ∧
      (optStrTruthy env.discord_bot_token = true →
        ms18.lookup "discord" = some (discordObj env)) ∧
      (optStrTruthy env.slack_bot_token = true ∧ optStrTruthy env.slack_app_token = true →
        ms18.lookup "slack" = some (slackObj env)) := by
    subst hc17obj
    by_cases hsl : optStrTruthy env.slack_bot_token = true ∧
        optStrTruthy env.slack_app_token = true
    · rw [stageSlack_channels hch17 hsl.1 hsl.2] at h18
      have hc18 : c18 = (Json.obj ds17).set "channels"
          (.obj (setAssoc "slack" (slackObj env) ms17)) :=
        (Option.some.inj h18).symm
      refine ⟨setAssoc "channels" (.obj (setAssoc "slack" (slackObj env) ms17)) ds17,
        setAssoc "slack" (slackObj env) ms17, ?_, ?_, ?_, ?_, ?_⟩
      · rw [hc18]
        rfl
      · rw [hc18]
        exact Json.get_set_obj ds17 "channels" _
      · intro htg
        rw [lookup_setAssoc_ne "slack" "telegram" _ (by decide)]
        exact htgl2 htg
      · intro hdc
        rw [lookup_setAssoc_ne "slack" "discord" _ (by decide)]
        exact hdcl2 hdc
      · intro _
        exact lookup_setAssoc_self "slack" (slackObj env) ms17
    · rw [stageSlack_skip _ hsl] at h18
      have hc18 : c18 = Json.obj ds17 := (Option.some.inj h18).symm
      exact ⟨ds17, ms17, hc18, hc18 ▸ hch17, htgl2, hdcl2,
        fun hcontr => absurd hcontr hsl⟩
  obtain ⟨ds18, ms18, hc18obj, hch18, htgl3, hdcl3, hsll3⟩ := step18
  subst hc18obj
  subst hrr
  have hsc : (stripProps (Json.obj ds18)).get "channels"
      = some (Json.obj (stripPropsMembers ms18)) := by
    rw [stripProps_get_obj, hch18]
    show some (stripProps (Json.obj ms18)) = _
    simp only [stripProps]
  refine ⟨?_, ?_, ?_, ?_, ?_⟩
  · intro htg
    rw [hsc]
    show (stripPropsMembers ms18).lookup "telegram" = some (telegramFinalObj env)
    rw [lookup_stripPropsMembers, htgl3 htg]
    show some (stripProps (telegramFinalObj env)) = _
    rw [stripProps_telegramFinalObj]
  · intro hdc
    rw [hsc]
    show (stripPropsMembers ms18).lookup "discord" = some (discordObj env)
    rw [lookup_stripPropsMembers, hdcl3 hdc]
    show some (stripProps (discordObj env)) = _
    rw [stripProps_discordObj]
  · intro hsl
    rw [hsc]
    show (stripPropsMembers ms18).lookup "slack" = some (slackObj env)
    rw [lookup_stripPropsMembers, hsll3 hsl]
    show some (stripProps (slackObj env)) = _
    rw [stripProps_slackObj]
  · unfold telegramFinalObj
    by_cases haf : optStrTruthy env.telegram_dm_allow_from = true
    · rw [if_pos haf]
      refine ⟨[("botToken", .str (env.telegram_bot_token.getD "")),
               ("enabled", .bool true),
               ("dmPolicy", .str (telegramDmPolicy env)),
               ("allowFrom",
                .arr ((jsSplitChar (env.telegram_dm_allow_from.getD "") ',').map .str) [])],
        ?_, ?_⟩
      · simp [telegramBaseObj, Json.set, setAssoc]
      · rw [if_pos (Or.inl haf)]
        rfl
    · rw [if_neg haf]
      by_cases hop : telegramDmPolicy env = "open"
      · rw [if_pos hop]
        refine ⟨[("botToken", .str (env.telegram_bot_token.getD "")),
                 ("enabled", .bool true),
                 ("dmPolicy", .str (telegramDmPolicy env)),
                 ("allowFrom", .arr [.str "*"] [])], ?_, ?_⟩
        · simp [telegramBaseObj, Json.set, setAssoc]
        · rw [if_pos (Or.inr hop)]
          rfl
      · rw [if_neg hop]
        refine ⟨[("botToken", .str (env.telegram_bot_token.getD "")),
                 ("enabled", .bool true),
                 ("dmPolicy", .str (telegramDmPolicy env))], rfl, ?_⟩
        rw [if_neg (not_or.mpr ⟨haf, hop⟩)]
        rfl
  · intro hop haf
    unfold telegramFinalObj
    rw [if_neg (by rw [haf]; exact Bool.false_ne_true), if_pos hop]
    show ((Json.obj [("botToken", .str (env.telegram_bot_token.getD "")),
                     ("enabled", .bool true),
                     ("dmPolicy", .str (telegramDmPolicy env))]).set "allowFrom"
            (.arr [.str "*"] [])).get "allowFrom" = some (.arr [.str "*"] [])
    exact Json.get_set_obj _ "allowFrom" _

set_option maxRecDepth 100000 in
theorem channels_replaced_wholesale_witness :
    (Json.obj exDsC4).get "channels" = some (.obj exMsC4) ∧
    patchConfig exEnvC4 (.obj exDsC4) = some exRC4 ∧
    (exRC4.get "channels").bind (fun ch => ch.get "telegram")
      = some (telegramFinalObj exEnvC4) ∧
    (exRC4.get "channels").bind (fun ch => ch.get "discord") = some (discordObj exEnvC4) ∧
    (exRC4.get "channels").bind (fun ch => ch.get "slack") = some (slackObj exEnvC4) ∧
    (telegramFinalObj exEnvC4).get "allowFrom" = some (.arr [.str "*"] []) := by
  have h1 : (Json.obj exDsC4).get "channels" = some (.obj exMsC4) := by
    with_unfolding_all rfl
  have h2 : patchConfig exEnvC4 (.obj exDsC4) = some exRC4 := by
    with_unfolding_all rfl
  have main := channels_replaced_wholesale exEnvC4 exDsC4 exRC4 exMsC4 h1 h2
  exact ⟨h1, h2, main.1 (by decide), main.2.1 (by decide),
    main.2.2.1 ⟨by decide, by decide⟩,
    main.2.2.2.2 (by decide) (by decide)⟩

theorem isNullJ_eq_false {P : Json} (h : P ≠ .null) : isNullJ P = false := by
  cases P <;> first | exact absurd rfl h | rfl

theorem isNullJ_eq_true {P : Json} (h : isNullJ P = true) : P = .null := by
  cases P <;> simp [isNullJ] at h <;> rfl

theorem stripPropsMembers_setAssoc (k : String) (v : Json) :
    ∀ ds : List (String × Json),
      stripPropsMembers (setAssoc k v ds) =
        setAssoc k (stripProps v) (stripPropsMembers ds) := by
  intro ds
  induction ds with
  | nil => simp only [setAssoc, stripPropsMembers]
  | cons kv rest ih =>
      obtain ⟨k1, v1⟩ := kv
      by_cases hk : k1 = k
      · simp only [setAssoc, if_pos hk, stripPropsMembers]
      · simp only [setAssoc, if_neg hk, stripPropsMembers]
        rw [ih]

theorem strip_set_obj (ds : List (String × Json)) (k : String) (v : Json) :
    stripProps ((Json.obj ds).set k v) =
      (stripProps (Json.obj ds)).set k (stripProps v) := by
  simp only [Json.set, stripProps]
  rw [stripPropsMembers_setAssoc]

theorem strip_set_arr (es : List Json) (ps : List (String × Json)) (k : String) (v : Json) :
    stripProps ((Json.arr es ps).set k v) = stripProps (Json.arr es ps) := by
  simp only [Json.set, stripProps]

theorem strip_ne_null {j : Json} (h : j ≠ .null) : stripProps j ≠ .null := by
  cases j <;> simp only [stripProps] <;> simp_all

theorem set_ne_null {j : Json} (h : j ≠ .null) (k : String) (v : Json) :
    j.set k v ≠ .null := by
  cases j <;> simp only [Json.set] <;> simp_all

theorem Json.get_set_cont {x : Json} {k : String} (v : Json)
    (hx : (∃ ds, x = Json.obj ds) ∨ ∃ es ps, x = Json.arr es ps) :
    (x.set k v).get k = some v := by
  rcases hx with ⟨ds, rfl⟩ | ⟨es, ps, rfl⟩
  · exact Json.get_set_obj ds k v
  · exact Json.get_set_arr es ps k v

theorem stripPropsList_str_mem (n : String) :
    ∀ es : List Json,
      ((stripPropsList es).any fun e => match e with | .str s => s = n | _ => false) =
        (es.any fun e => match e with | .str s => s = n | _ => false) := by
  intro es
  induction es with
  | nil => rfl
  | cons e rest ih =>
      simp only [stripPropsList, List.any_cons]
      rw [ih]
      cases e <;> simp only [stripProps]

theorem jsIncludes_strip (A : Json) (n : String) :
    jsIncludes (some (stripProps A)) n = jsIncludes (some A) n := by
  cases A <;> simp only [stripProps, jsIncludes]
  rw [stripPropsList_str_mem]

theorem ensVal_truthy (vo : Option Json) : (ensVal vo).truthy = true := by
  cases vo with
  | none => rfl
  | some v =>
      show (if v.truthy = true then v else Json.obj []).truthy = true
      by_cases hv : v.truthy = true
      · rw [if_pos hv]
        exact hv
      · rw [if_neg hv]
        rfl

theorem ensVal_of_truthy {v : Json} (hv : v.truthy = true) : ensVal (some v) = v := by
  show (if v.truthy = true then v else Json.obj []) = v
  rw [if_pos hv]

theorem ensVal_ne_null (vo : Option Json) : ensVal vo ≠ .null := by
  intro h
  have := ensVal_truthy vo
  rw [h] at this
  exact absurd this (by simp [Json.truthy])
theorem orAssignAt1_obj_factor {x : Json} (hx : x ≠ .null) (k : String) :
    orAssignAt1 x k (.obj []) = some (x.set k (ensVal (x.get k))) := by
  unfold orAssignAt1
  rw [readProp_eq hx]
  cases hg : x.get k with
  | none => rfl
  | some v =>
      simp only [Option.bind_eq_bind, Option.some_bind]
      by_cases hv : v.truthy = true
      · rw [if_pos hv, show ensVal (some v) = v from ensVal_of_truthy hv,
          Json.set_self_of_get x k v hg]
        rfl
      · rw [if_neg hv, show ensVal (some v) = Json.obj [] from by
          show (if v.truthy = true then v else Json.obj []) = _
          rw [if_neg hv]]
        rfl

theorem orAssignAt2_factor {x P : Json} {k1 : String} (k2 : String) (d : Json)
    (hg : x.get k1 = some P) :
    orAssignAt2 x k1 k2 d = (orAt2Val P k2 d).map (fun w => x.set k1 w) := by
  have hx := Json.ne_null_of_get_some hg
  unfold orAssignAt2 orAt2Val
  rw [readProp_eq hx, hg]
  simp only [Option.bind_eq_bind, Option.some_bind]
  cases P <;> try rfl
  case arr es ps =>
      simp only []
      rw [if_neg (show ¬ isNullJ (Json.arr es ps) = true from by simp [isNullJ])]
      cases hE : (Json.arr es ps).get k2 with
      | none => rfl
      | some v =>
          simp only []
          by_cases hv : v.truthy = true
          · rw [if_pos hv, if_pos hv]
            show (some x : Option Json) = some (x.set k1 (Json.arr es ps))
            rw [Json.set_self_of_get x k1 (Json.arr es ps) hg]
          · rw [if_neg hv, if_neg hv]
            rfl
  case obj ms =>
      simp only []
      rw [if_neg (show ¬ isNullJ (Json.obj ms) = true from by simp [isNullJ])]
      cases hE : (Json.obj ms).get k2 with
      | none => rfl
      | some v =>
          simp only []
          by_cases hv : v.truthy = true
          · rw [if_pos hv, if_pos hv]
            show (some x : Option Json) = some (x.set k1 (Json.obj ms))
            rw [Json.set_self_of_get x k1 (Json.obj ms) hg]
          · rw [if_neg hv, if_neg hv]
            rfl

theorem orAssignAt3_factor {x P : Json} {k1 : String} (k2 k3 : String) (d : Json)
    (hg : x.get k1 = some P) :
    orAssignAt3 x k1 k2 k3 d = (orAt3Val P k2 k3 d).map (fun w => x.set k1 w) := by
  have hx := Json.ne_null_of_get_some hg
  unfold orAssignAt3 orAt3Val
  rw [readProp_eq hx, hg]
  simp only [Option.bind_eq_bind, Option.some_bind]
  cases P <;> try rfl
  case arr es ps =>
      simp only []
      rw [if_neg (show ¬ isNullJ (Json.arr es ps) = true from by simp [isNullJ])]
      cases hE : (Json.arr es ps).get k2 with
      | none => rfl
      | some B2 =>
          cases B2 <;> try rfl
          case arr es2 ps2 =>
              simp only []
              rw [if_neg (show ¬ isNullJ (Json.arr es2 ps2) = true from by simp [isNullJ])]
              cases hE2 : (Json.arr es2 ps2).get k3 with
              | none => rfl
              | some v =>
                  simp only []
                  by_cases hv : v.truthy = true
                  · rw [if_pos hv, if_pos hv]
                    show (some x : Option Json) = some (x.set k1 (Json.arr es ps))
                    rw [Json.set_self_of_get x k1 (Json.arr es ps) hg]
                  · rw [if_neg hv, if_neg hv]
                    rfl
          case obj ms2 =>
              simp only []
              rw [if_neg (show ¬ isNullJ (Json.obj ms2) = true from by simp [isNullJ])]
              cases hE2 : (Json.obj ms2).get k3 with
              | none => rfl
              | some v =>
                  simp only []
                  by_cases hv : v.truthy = true
                  · rw [if_pos hv, if_pos hv]
                    show (some x : Option Json) = some (x.set k1 (Json.arr es ps))
                    rw [Json.set_self_of_get x k1 (Json.arr es ps) hg]
                  · rw [if_neg hv, if_neg hv]
                    rfl
  case obj ms =>
      simp only []
      rw [if_neg (show ¬ isNullJ (Json.obj ms) = true from by simp [isNullJ])]
      cases hE : (Json.obj ms).get k2 with
      | none => rfl
      | some B2 =>
          cases B2 <;> try rfl
          case arr es2 ps2 =>
              simp only []
              rw [if_neg (show ¬ isNullJ (Json.arr es2 ps2) = true from by simp [isNullJ])]
              cases hE2 : (Json.arr es2 ps2).get k3 with
              | none => rfl
              | some v =>
                  simp only []
                  by_cases hv : v.truthy = true
                  · rw [if_pos hv, if_pos hv]
                    show (some x : Option Json) = some (x.set k1 (Json.obj ms))
                    rw [Json.set_self_of_get x k1 (Json.obj ms) hg]
                  · rw [if_neg hv, if_neg hv]
                    rfl
          case obj ms2 =>
              simp only []
              rw [if_neg (show ¬ isNullJ (Json.obj ms2) = true from by simp [isNullJ])]
              cases hE2 : (Json.obj ms2).get k3 with
              | none => rfl
              | some v =>
                  simp only []
                  by_cases hv : v.truthy = true
                  · rw [if_pos hv, if_pos hv]
                    show (some x : Option Json) = some (x.set k1 (Json.obj ms))
                    rw [Json.set_self_of_get x k1 (Json.obj ms) hg]
                  · rw [if_neg hv, if_neg hv]
                    rfl

theorem setAt2_factor {x P : Json} {k1 : String} (k2 : String) (v : Json)
    (hg : x.get k1 = some P) :
    setAt2 x k1 k2 v = (setAt2Val P k2 v).map (fun w => x.set k1 w) := by
  have hx := Json.ne_null_of_get_some hg
  unfold setAt2 setAt2Val
  rw [readProp_eq hx, hg]
  simp only [Option.bind_eq_bind, Option.some_bind]
  cases P <;> rfl

theorem setAt3_factor {x P : Json} {k1 : String} (k2 k3 : String) (v : Json)
    (hg : x.get k1 = some P) :
    setAt3 x k1 k2 k3 v = (setAt3Val P k2 k3 v).map (fun w => x.set k1 w) := by
  have hx := Json.ne_null_of_get_some hg
  unfold setAt3 setAt3Val
  rw [readProp_eq hx, hg]
  simp only [Option.bind_eq_bind, Option.some_bind]
  cases P <;> try rfl
  case arr es ps =>
      simp only []
      rw [if_neg (show ¬ isNullJ (Json.arr es ps) = true from by simp [isNullJ])]
      cases hE : (Json.arr es ps).get k2 with
      | none => rfl
      | some B2 =>
          cases B2 <;> rfl
  case obj ms =>
      simp only []
      rw [if_neg (show ¬ isNullJ (Json.obj ms) = true from by simp [isNullJ])]
      cases hE : (Json.obj ms).get k2 with
      | none => rfl
      | some B2 =>
          cases B2 <;> rfl

theorem setAt4_factor {x P : Json} {k1 : String} (k2 k3 k4 : String) (v : Json)
    (hg : x.get k1 = some P) :
    setAt4 x k1 k2 k3 k4 v = (setAt4Val P k2 k3 k4 v).map (fun w => x.set k1 w) := by
  have hx := Json.ne_null_of_get_some hg
  unfold setAt4 setAt4Val
  rw [readProp_eq hx, hg]
  simp only [Option.bind_eq_bind, Option.some_bind]
  cases P <;> try rfl
  case arr es ps =>
      simp only []
      rw [if_neg (show ¬ isNullJ (Json.arr es ps) = true from by simp [isNullJ])]
      cases hE : (Json.arr es ps).get k2 with
      | none => rfl
      | some B2 =>
          cases B2 <;> try rfl
          case arr es2 ps2 =>
              simp only []
              rw [if_neg (show ¬ isNullJ (Json.arr es2 ps2) = true from by simp [isNullJ])]
              cases hE2 : (Json.arr es2 ps2).get k3 with
              | none => rfl
              | some B3 =>
                  cases B3 <;> rfl
          case obj ms2 =>
              simp only []
              rw [if_neg (show ¬ isNullJ (Json.obj ms2) = true from by simp [isNullJ])]
              cases hE2 : (Json.obj ms2).get k3 with
              | none => rfl
              | some B3 =>
                  cases B3 <;> rfl
  case obj ms =>
      simp only []
      rw [if_neg (show ¬ isNullJ (Json.obj ms) = true from by simp [isNullJ])]
      cases hE : (Json.obj ms).get k2 with
      | none => rfl
      | some B2 =>
          cases B2 <;> try rfl
          case arr es2 ps2 =>
              simp only []
              rw [if_neg (show ¬ isNullJ (Json.arr es2 ps2) = true from by simp [isNullJ])]
              cases hE2 : (Json.arr es2 ps2).get k3 with
              | none => rfl
              | some B3 =>
                  cases B3 <;> rfl
          case obj ms2 =>
              simp only []
              rw [if_neg (show ¬ isNullJ (Json.obj ms2) = true from by simp [isNullJ])]
              cases hE2 : (Json.obj ms2).get k3 with
              | none => rfl
              | some B3 =>
                  cases B3 <;> rfl

theorem readAt3_factor {x P : Json} {k1 : String} (k2 k3 : String)
    (hg : x.get k1 = some P) :
    readAt3 x k1 k2 k3 = readAt3Val P k2 k3 := by
  have hx := Json.ne_null_of_get_some hg
  unfold readAt3 readAt2 readAt3Val
  rw [readProp_eq hx, hg]
  simp only [Option.bind_eq_bind, Option.some_bind]
  cases P <;> try rfl
  case arr es ps =>
      simp only []
      rw [if_neg (show ¬ isNullJ (Json.arr es ps) = true from by simp [isNullJ])]
      cases hE : (Json.arr es ps).get k2 with
      | none => rfl
      | some B2 =>
          cases B2 <;> rfl
  case obj ms =>
      simp only []
      rw [if_neg (show ¬ isNullJ (Json.obj ms) = true from by simp [isNullJ])]
      cases hE : (Json.obj ms).get k2 with
      | none => rfl
      | some B2 =>
          cases B2 <;> rfl

theorem orAssignAt2_undef {x : Json} {k1 : String} (hx : x ≠ .null)
    (hg : x.get k1 = none) (k2 : String) (d : Json) :
    orAssignAt2 x k1 k2 d = none := by
  unfold orAssignAt2
  rw [readProp_eq hx, hg]
  rfl

theorem orAssignAt3_undef {x : Json} {k1 : String} (hx : x ≠ .null)
    (hg : x.get k1 = none) (k2 k3 : String) (d : Json) :
    orAssignAt3 x k1 k2 k3 d = none := by
  unfold orAssignAt3
  rw [readProp_eq hx, hg]
  rfl

theorem setAt2_undef {x : Json} {k1 : String} (hx : x ≠ .null)
    (hg : x.get k1 = none) (k2 : String) (v : Json) :
    setAt2 x k1 k2 v = none := by
  unfold setAt2
  rw [readProp_eq hx, hg]
  rfl

theorem setAt3_undef {x : Json} {k1 : String} (hx : x ≠ .null)
    (hg : x.get k1 = none) (k2 k3 : String) (v : Json) :
    setAt3 x k1 k2 k3 v = none := by
  unfold setAt3
  rw [readProp_eq hx, hg]
  rfl

theorem setAt4_undef {x : Json} {k1 : String} (hx : x ≠ .null)
    (hg : x.get k1 = none) (k2 k3 k4 : String) (v : Json) :
    setAt4 x k1 k2 k3 k4 v = none := by
  unfold setAt4
  rw [readProp_eq hx, hg]
  rfl

theorem readAt3_undef {x : Json} {k1 : String} (hx : x ≠ .null)
    (hg : x.get k1 = none) (k2 k3 : String) :
    readAt3 x k1 k2 k3 = none := by
  unfold readAt3 readAt2
  rw [readProp_eq hx, hg]
  rfl
